import Mathlib

/-!
Shallow embedding of the nessim gate-level NES simulator core
(src/src/lib.rs together with src/src/preprocessor/mod.rs and the node
number constants of consts.rs), and proofs about the embedded operations.

Machine integers of the source are modelled as Nat (u8/u16/u64 values never
overflow on the paths embedded here; the shoelace accumulator, which the
source computes in i64, is modelled as Int).  Mutation is modelled by
explicit state passing; `Cell` fields of the source become plain fields.
The Rust functions that can panic (`recalc_node_list` on its iteration cap,
`get_nametable` on four-screen mirroring) are modelled as Option-returning
functions, `none` standing for the panic.
-/

namespace Nessim

/-! ### Node number constants (consts.rs) -/

def EMPTYNODE : Nat := 65535
def NODE_GND : Nat := 2
def NODE_PWR : Nat := 1
def NODE_CLK0 : Nat := 772
def NODE_RESET : Nat := 1934
def NODE_IO_CE : Nat := 5
def NODE_INT : Nat := 1031
def NODE_ALE : Nat := 1611
def NODE_RD : Nat := 2428
def NODE_WR : Nat := 2087
def NODE_CPU_SO : Nat := 24246
def NODE_CPU_IRQ : Nat := 23488
def NODE_CPU_NMI : Nat := 1031
def NODE_CPU_CLK0 : Nat := 24235
def NODE_CPU_RW : Nat := 1224
def NODE_PCLK1 : Nat := 58

def CPU_AB_NODES : List Nat :=
  [23020, 23019, 23030, 23091, 23335, 23489, 23727, 24521,
   24628, 24817, 24965, 25055, 25084, 25083, 25085, 25086]

def NODE_CPU_AB13 : Nat := 25083
def NODE_CPU_AB14 : Nat := 25085
def NODE_CPU_AB15 : Nat := 25086

def CPU_DB_NODES : List Nat :=
  [24819, 24966, 25056, 25091, 25090, 25089, 25088, 25087]

-- The PPU data bus nodes NODE_DB0..NODE_DB7 and the low PPU address bus
-- nodes share numbers in consts.rs (the bus is multiplexed on the die).
def DB_NODES : List Nat :=
  [1991, 2370, 2650, 2776, 2775, 2774, 2773, 2772]

def AB_NODES : List Nat :=
  [1991, 2370, 2650, 2776, 2775, 2774, 2773, 2772,
   2771, 2770, 2769, 2768, 2767, 2649]

def NODE_PAL_D0_OUT : Nat := 1215
def NODE_PAL_D1_OUT : Nat := 6565
def NODE_PAL_D2_OUT : Nat := 6566
def NODE_PAL_D3_OUT : Nat := 6567
def NODE_PAL_D4_OUT : Nat := 6564
def NODE_PAL_D5_OUT : Nat := 6568

def HPOS_NODES : List Nat := [209, 260, 310, 376, 428, 495, 544, 584, 631]
def VPOS_NODES : List Nat := [210, 259, 311, 377, 429, 496, 543, 588, 632]

def PALETTE_ARGB : List Nat :=
  [0xFF666666, 0xFF002A88, 0xFF1412A7, 0xFF3B00A4, 0xFF5C007E, 0xFF6E0040, 0xFF6C0600, 0xFF561D00,
   0xFF333500, 0xFF0B4800, 0xFF005200, 0xFF004F08, 0xFF00404D, 0xFF000000, 0xFF000000, 0xFF000000,
   0xFFADADAD, 0xFF155FD9, 0xFF4240FF, 0xFF7527FE, 0xFFA01ACC, 0xFFB71E7B, 0xFFB53120, 0xFF994E00,
   0xFF6B6D00, 0xFF388700, 0xFF0C9300, 0xFF008F32, 0xFF007C8D, 0xFF000000, 0xFF000000, 0xFF000000,
   0xFFFFFEFF, 0xFF64B0FF, 0xFF9290FF, 0xFFC676FF, 0xFFF36AFF, 0xFFFE6ECC, 0xFFFE8170, 0xFFEA9E22,
   0xFFBCBE00, 0xFF88D800, 0xFF5CE430, 0xFF45E082, 0xFF48CDDE, 0xFF4F4F4F, 0xFF000000, 0xFF000000,
   0xFFFFFEFF, 0xFFC0DFFF, 0xFFD3D2FF, 0xFFE8C8FF, 0xFFFBC2FF, 0xFFFEC4EA, 0xFFFECCC5, 0xFFF7D8A5,
   0xFFE4E594, 0xFFCFEF96, 0xFFBDF4AB, 0xFFB3F3CC, 0xFFB5EBF2, 0xFFB8B8B8, 0xFF000000, 0xFF000000]

/-! ### Data model -/

inductive Mirroring where
  | Horizontal
  | Vertical
  | FourScreens
  | ScreenAOnly
  | ScreenBOnly
deriving DecidableEq

/-- Static topology of the network, as produced by the preprocessor: the
immutable fields of SimulationState (lib.rs).  `gates n` is the list of
transistor indices whose gate terminal is node `n`; `c1c2s n` is the
length-prefixed `node_counts` / `nodes_c1_c2` channel index of the source,
modelled directly as the list of its valid entries. -/
structure Config where
  numNodes : Nat
  numTransistors : Nat
  gateOf : Nat → Nat
  c1 : Nat → Nat
  c2 : Nat → Nat
  gates : Nat → List Nat
  c1c2s : Nat → List Nat
  area : Nat → Nat
  initPullup : Nat → Bool
  transInitPower : Nat → Bool
  allRecalcNodes : List Nat
  paletteNodes : Nat → Nat → Int × Int
  spriteNodes : Nat → Nat → Int × Int

/-- The mutable fields of SimulationState (lib.rs).  The recalc swap list
is modelled physically: two buffers `lists0`/`lists1` and the index flag
`curIdx` (`false` means the current list is `lists0`), mirroring
recalc_swap_list.rs, so that buffer-reuse behaviour is preserved exactly. -/
structure SimState where
  state : Nat → Bool
  pullup : Nat → Bool
  pulldown : Nat → Bool
  floating : Nat → Bool
  -- Transistor::on (the Rust field name `on` is a reserved token in Lean)
  tOn : Nat → Bool
  lists0 : List Nat
  lists1 : List Nat
  curIdx : Bool
  processed : Nat → Bool
  stepCycleCount : Nat
  prevPpuAle : Bool
  prevPpuWrite : Bool
  prevPpuRead : Bool
  chrAddress : Nat
  lastAddress : Nat
  mirroring : Mirroring
  chrRam : Nat → Nat
  nametableRam : Nat → Nat → Nat
  cpuRam : Nat → Nat
  prgRam : Nat → Nat
  lastCpuDbValue : Nat
  lastData : Nat
  prevHpos : Int
  framebuffer : Nat → Nat

/-- Pointwise function update (a `Cell` write at one index). -/
def updf {β : Type} (f : Nat → β) (k : Nat) (v : β) : Nat → β :=
  fun n => if n = k then v else f n

/-- Update of the two-dimensional nametable RAM at one byte. -/
def upd2 (f : Nat → Nat → Nat) (t o v : Nat) : Nat → Nat → Nat :=
  fun a b => if a = t ∧ b = o then v else f a b

/-! ### Recalc swap list (recalc_swap_list.rs) -/

def cur_list (s : SimState) : List Nat :=
  if s.curIdx then s.lists1 else s.lists0

def next_list (s : SimState) : List Nat :=
  if s.curIdx then s.lists0 else s.lists1

/-- RecalcSwapList::push_next_list. -/
def push_next (s : SimState) (n : Nat) : SimState :=
  if s.curIdx then { s with lists0 := s.lists0 ++ [n] }
  else { s with lists1 := s.lists1 ++ [n] }

/-- RecalcSwapList::swap: the current physical buffer is cleared and the
index pair is swapped. -/
def swap_buffers (s : SimState) : SimState :=
  if s.curIdx then { s with lists1 := [], curIdx := false }
  else { s with lists0 := [], curIdx := true }

/-- RecalcSwapList::init: buffer 0 is cleared and refilled with the seeds
and the indices are reset; buffer 1 (the new successor buffer) is NOT
cleared and keeps whatever the previous call left in it. -/
def swap_list_init (s : SimState) (seeds : List Nat) : SimState :=
  { s with lists0 := seeds, curIdx := false }

/-! ### Memory model (cpu_read / cpu_write / ppu_read / ppu_write) -/

/-- SimulationState::cpu_read. -/
def cpu_read (s : SimState) (a : Nat) : Nat × Bool :=
  if a < 0x2000 then (s.cpuRam (a &&& 0x7ff), false)
  else if a ≥ 0x8000 then (s.prgRam (a - 0x8000), false)
  else (s.lastCpuDbValue, true)

/-- SimulationState::cpu_write. -/
def cpu_write (s : SimState) (a d : Nat) : SimState :=
  if a < 0x2000 then { s with cpuRam := updf s.cpuRam (a &&& 0x7ff) d }
  else if a ≥ 0x8000 then { s with prgRam := updf s.prgRam (a - 0x8000) d }
  else s

/-- SimulationState::get_nametable; `none` models the `unimplemented!()`
panic on four-screen mirroring. -/
def get_nametable (s : SimState) (a : Nat) : Option Nat :=
  match s.mirroring with
  | Mirroring.Horizontal => some (if a &&& 0x800 > 0 then 1 else 0)
  | Mirroring.Vertical => some (if a &&& 0x400 > 0 then 1 else 0)
  | Mirroring.FourScreens => none
  | Mirroring.ScreenAOnly => some 0
  | Mirroring.ScreenBOnly => some 1

/-- SimulationState::ppu_write. -/
def ppu_write (s : SimState) (a0 d : Nat) : Option SimState :=
  let a1 := a0 &&& 0x3fff
  let a := if a1 ≥ 0x3000 then a1 - 0x1000 else a1
  if a < 0x2000 then some { s with chrRam := updf s.chrRam a d }
  else
    match get_nametable s a with
    | none => none
    | some t => some { s with nametableRam := upd2 s.nametableRam t (a &&& 0x3ff) d }

/-- SimulationState::ppu_read. -/
def ppu_read (s : SimState) (a0 : Nat) : Option Nat :=
  let a1 := a0 &&& 0x3fff
  let a := if a1 ≥ 0x3000 then a1 - 0x1000 else a1
  if a < 0x2000 then some (s.chrRam a)
  else
    match get_nametable s a with
    | none => none
    | some t => some (s.nametableRam t (a &&& 0x3ff))

/-! ### Group collector (get_node_group / add_node_to_group) -/

/-- The transient group of SimulationState: the `group` buffer plus the
`has_ground` / `has_power` side outputs. -/
structure GroupAcc where
  group : List Nat
  hasGround : Bool
  hasPower : Bool
deriving DecidableEq

/-- The node at the far end of transistor `ti` as seen from node `n`
(the body of the conducting-neighbour step of add_node_to_group). -/
def other_end (cfg : Config) (n ti : Nat) : Nat :=
  if cfg.c1 ti = n then cfg.c2 ti else cfg.c1 ti

/-- SimulationState::add_node_to_group.  The source recursion is embedded
with explicit fuel (structural, so that the kernel can evaluate it);
`none` models fuel exhaustion, which, as proved below, cannot occur with
fuel `numNodes + 1` on a well-formed topology.  The fold over
`c1c2s n` is the source loop over the channel-connected transistors of
the node just added, recursing into every conducting one. -/
def add_node_to_group (cfg : Config) (onf : Nat → Bool) :
    Nat → Nat → GroupAcc → Option GroupAcc
  | 0, _, _ => none
  | fuel + 1, n, acc =>
    if n = NODE_GND then some { acc with hasGround := true }
    else if n = NODE_PWR then some { acc with hasPower := true }
    else if n ∈ acc.group then some acc
    else
      (cfg.c1c2s n).foldlM
        (fun a ti =>
          if onf ti then add_node_to_group cfg onf fuel (other_end cfg n ti) a
          else some a)
        { acc with group := acc.group ++ [n] }

/-- SimulationState::get_node_group: reset the scratch groupand walk from
the seed.  Fuel `numNodes + 1` is always sufficient on a well-formed
topology (theorem below). -/
def get_node_group (cfg : Config) (s : SimState) (n : Nat) : Option GroupAcc :=
  add_node_to_group cfg s.tOn (cfg.numNodes + 1) n ⟨[], false, false⟩

/-! ### Value resolver (get_node_value) -/

/-- The fixed weak-drive node set scanned by get_node_value, in source
order. -/
def is_weak_drive (i : Nat) : Bool :=
  i = 359 || i = 566 || i = 691 || i = 871 || i = 870 || i = 864 || i = 856 || i = 818

/-- The rail-flag adjustment at the top of get_node_value: when both rail
flags are set and the group holds a weak-drive node, both flags are
cleared. -/
def rail_flags_after_adjust (acc : GroupAcc) : Bool × Bool :=
  if acc.hasGround && acc.hasPower && acc.group.any is_weak_drive
  then (false, false) else (acc.hasGround, acc.hasPower)

/-- The pull / area loop of get_node_value: the group is scanned in stored
order; the first node with a pull flag decides the value, otherwise the
high / low area totals are compared. -/
def value_area_loop (cfg : Config) (s : SimState) :
    List Nat → Nat → Nat → Bool
  | [], hiArea, loArea => decide (hiArea > loArea)
  | n :: rest, hiArea, loArea =>
    if s.pullup n then true
    else if s.pulldown n then false
    else if s.state n then value_area_loop cfg s rest (hiArea + cfg.area n) loArea
    else value_area_loop cfg s rest hiArea (loArea + cfg.area n)

/-- SimulationState::get_node_value.  The source also writes the adjusted
rail flags back into the scratch fields; since every call is preceded by
get_node_group, which resets them, only the returned Bool is observable
and the embedding returns just that. -/
def get_node_value (cfg : Config) (s : SimState) (acc : GroupAcc) : Bool :=
  let flags := rail_flags_after_adjust acc
  if flags.1 then false
  else if flags.2 then true
  else value_area_loop cfg s acc.group 0 0

/-! ### Relaxation driver (recalc_node_list and helpers) -/

/-- SimulationState::add_recalc_node. -/
def add_recalc_node (s : SimState) (n : Nat) : SimState :=
  if n = NODE_GND ∨ n = NODE_PWR then s
  else if s.processed n then s
  else { push_next s n with processed := updf s.processed n true }

/-- SimulationState::turn_transistor_on. -/
def turn_transistor_on (cfg : Config) (s : SimState) (i : Nat) : SimState :=
  if s.tOn i then s
  else add_recalc_node { s with tOn := updf s.tOn i true } (cfg.c1 i)

/-- SimulationState::turn_transistor_off. -/
def turn_transistor_off (cfg : Config) (s : SimState) (i : Nat) : SimState :=
  if s.tOn i then
    add_recalc_node
      (add_recalc_node { s with tOn := updf s.tOn i false } (cfg.c1 i))
      (cfg.c2 i)
  else s

/-- The gate-toggling loop run for one group member whose state changed
(the inner `for i in gates` loop of recalc_node_list). -/
def update_gates (cfg : Config) (v : Bool) (ts : List Nat) (s : SimState) : SimState :=
  ts.foldl
    (fun s i => if v then turn_transistor_on cfg s i else turn_transistor_off cfg s i) s

/-- The group-member loop of recalc_node_list: write the new state into
every member whose state differs and toggle the transistors it gates. -/
def apply_group_state (cfg : Config) (v : Bool) (g : List Nat) (s : SimState) : SimState :=
  g.foldl
    (fun s m =>
      if s.state m ≠ v then
        update_gates cfg v (cfg.gates m) { s with state := updf s.state m v }
      else s) s

/-- The body of recalc_node_list run for one worklist entry. -/
def process_node (cfg : Config) (s : SimState) (n : Nat) : Option SimState :=
  if n = NODE_GND ∨ n = NODE_PWR then some s
  else
    match get_node_group cfg s n with
    | none => none
    | some acc => some (apply_group_state cfg (get_node_value cfg s acc) acc.group s)

/-- One pass of recalc_node_list over a snapshot of the current worklist. -/
def run_pass (cfg : Config) : List Nat → SimState → Option SimState
  | [], s => some s
  | n :: rest, s =>
    match process_node cfg s n with
    | none => none
    | some s1 => run_pass cfg rest s1

/-- The end-of-pass bookkeeping of recalc_node_list: clear the queued bit
of every successor-worklist entry, then swap the buffers. -/
def swap_step (s : SimState) : SimState :=
  swap_buffers
    { s with processed := (next_list s).foldl (fun p n => updf p n false) s.processed }

/-- The `for iter_count in 0..100` loop of recalc_node_list; the fuel is
`99 - iter_count`, so fuel 0 is the `iter_count >= 99` panic, modelled as
`none`. -/
def recalc_loop (cfg : Config) : Nat → SimState → Option SimState
  | 0, _ => none
  | fuel + 1, s =>
    match run_pass cfg (cur_list s) s with
    | none => none
    | some s1 =>
      if next_list s1 = [] then some s1
      else recalc_loop cfg fuel (swap_step s1)

/-- SimulationState::recalc_node_list. -/
def recalc_node_list (cfg : Config) (s : SimState) (seeds : List Nat) : Option SimState :=
  recalc_loop cfg 99 (swap_list_init s seeds)

/-! ### State / pull mutators (set_high, set_low, set_bit, byte writes) -/

/-- SimulationState::is_node_high. -/
def is_node_high (s : SimState) (n : Nat) : Bool := s.state n

/-- SimulationState::set_high. -/
def set_high (cfg : Config) (s : SimState) (n : Nat) : Option SimState :=
  recalc_node_list cfg
    { s with pullup := updf s.pullup n true, pulldown := updf s.pulldown n false } [n]

/-- SimulationState::set_low. -/
def set_low (cfg : Config) (s : SimState) (n : Nat) : Option SimState :=
  recalc_node_list cfg
    { s with pullup := updf s.pullup n false, pulldown := updf s.pulldown n true } [n]

/-- The transistor-forcing loops of set_bit: set `on := v` for every
transistor gated by the listed nodes. -/
def force_gates (v : Bool) (ts : List Nat) (s : SimState) : SimState :=
  ts.foldl (fun s g => { s with tOn := updf s.tOn g v }) s

/-- SimulationState::set_bit (the latch forcing used by palette and sprite
RAM pokes); a negative endpoint is a silent no-op. -/
def set_bit (cfg : Config) (s : SimState) (n1 n2 : Int) : Option SimState :=
  if n1 < 0 ∨ n2 < 0 then some s
  else
    let s2 := force_gates false (cfg.gates n2.toNat) (force_gates true (cfg.gates n1.toNat) s)
    recalc_node_list cfg
      { s2 with state := updf (updf s2.state n1.toNat true) n2.toNat false }
      [n1.toNat, n2.toNat]

/-- The pull-setting loop of write_byte (LSB first). -/
def write_byte_pulls (s : SimState) : List Nat → Nat → SimState
  | [], _ => s
  | n :: rest, v =>
    let s1 :=
      if v % 2 = 0 then
        { s with pulldown := updf s.pulldown n true, pullup := updf s.pullup n false }
      else
        { s with pulldown := updf s.pulldown n false, pullup := updf s.pullup n true }
    write_byte_pulls s1 rest (v / 2)

/-- SimulationState::write_byte. -/
def write_byte (cfg : Config) (s : SimState) (nodes : List Nat) (val : Nat) :
    Option SimState :=
  recalc_node_list cfg (write_byte_pulls s nodes val) nodes

/-- SimulationState::float_byte. -/
def float_byte (cfg : Config) (s : SimState) (nodes : List Nat) : Option SimState :=
  recalc_node_list cfg
    (nodes.foldl
      (fun s n =>
        { s with pulldown := updf s.pulldown n false, pullup := updf s.pullup n false })
      s)
    nodes

def write_cpu_db (cfg : Config) (s : SimState) (val : Nat) : Option SimState :=
  write_byte cfg s CPU_DB_NODES val

def write_db (cfg : Config) (s : SimState) (val : Nat) : Option SimState :=
  write_byte cfg s DB_NODES val

def float_db (cfg : Config) (s : SimState) : Option SimState :=
  float_byte cfg s DB_NODES

def float_cpu_db (cfg : Config) (s : SimState) : Option SimState :=
  float_byte cfg s CPU_DB_NODES

/-! ### Bus readers -/

/-- LSB-first assembly of the listed node states into an integer (the
common shape of read_cpu_address_bus, read_cpu_data_bus, read_db, read_ab,
read_hpos and read_vpos). -/
def read_bits (s : SimState) : List Nat → Nat
  | [] => 0
  | n :: rest => (if s.state n then 1 else 0) + 2 * read_bits s rest

def read_cpu_address_bus (s : SimState) : Nat := read_bits s CPU_AB_NODES

def read_cpu_data_bus (s : SimState) : Nat := read_bits s CPU_DB_NODES

def read_db (s : SimState) : Nat := read_bits s DB_NODES

def read_ab (s : SimState) : Nat := read_bits s AB_NODES

def read_hpos (s : SimState) : Nat := read_bits s HPOS_NODES

def read_vpos (s : SimState) : Nat := read_bits s VPOS_NODES

def read_bit (s : SimState) (n : Nat) : Nat := if s.state n then 1 else 0

/-- SimulationState::read_ppu_address_bus: samples the 14-bit address bus
into `last_address` only while ALE is high, otherwise returns the stale
latch. -/
def read_ppu_address_bus (s : SimState) : SimState × Nat :=
  if s.state NODE_ALE then ({ s with lastAddress := read_ab s }, read_ab s)
  else (s, s.lastAddress)

/-- SimulationState::read_ppu_data_bus: resamples `last_data` whenever /RD
or /WR is low. -/
def read_ppu_data_bus (s : SimState) : SimState × Nat :=
  if !s.state NODE_RD || !s.state NODE_WR then
    ({ s with lastData := read_db s }, read_db s)
  else (s, s.lastData)

/-! ### Cartridge bus (handle_chr_bus) -/

/-- The ALE latch step of handle_chr_bus.  The source comment says rising
edge of ALE, but the test is prev AND now.  It runs before any mutation,
so reading the snapshot and the ALE node here matches the entry samples. -/
def chr_ale_latch (s : SimState) : SimState :=
  if s.prevPpuAle && is_node_high s NODE_ALE then
    { (read_ppu_address_bus s).1 with chrAddress := (read_ppu_address_bus s).2 }
  else s

/-- Falling edge of /RD: put the ppu_read bits on the data bus.  `pRd` and
`rd` are the entry samples of handle_chr_bus. -/
def chr_read_fall (cfg : Config) (s : SimState) (pRd rd : Bool) : Option SimState :=
  if pRd && !rd then
    match ppu_read s s.chrAddress with
    | none => none
    | some d => write_db cfg s d
  else some s

/-- Rising edge of /RD: float the data bus. -/
def chr_read_rise (cfg : Config) (s : SimState) (pRd rd : Bool) : Option SimState :=
  if !pRd && rd then float_db cfg s else some s

/-- Rising edge of /WR: store the data-bus byte in PPU memory (the bus is
resampled into last_data first). -/
def chr_write_rise (cfg : Config) (s : SimState) (pWr wr : Bool) : Option SimState :=
  if !pWr && wr then
    ppu_write (read_ppu_data_bus s).1 (read_ppu_data_bus s).1.chrAddress
      (read_ppu_data_bus s).2
  else some s

/-- SimulationState::handle_chr_bus.  ALE / RD / WR are sampled once at
entry; the previous-edge snapshots are only replaced at the end. -/
def handle_chr_bus (cfg : Config) (s : SimState) : Option SimState :=
  let ale := is_node_high s NODE_ALE
  let rd := is_node_high s NODE_RD
  let wr := is_node_high s NODE_WR
  let pRd := s.prevPpuRead
  let pWr := s.prevPpuWrite
  let s := chr_ale_latch s
  do
  let s ← chr_read_fall cfg s pRd rd
  let s ← chr_read_rise cfg s pRd rd
  let s ← chr_write_rise cfg s pWr wr
  let s := (read_ppu_data_bus s).1
  some { s with prevPpuAle := ale, prevPpuRead := rd, prevPpuWrite := wr }

/-! ### CPU bus (handle_cpu_bus_read / handle_cpu_bus_write) -/

/-- SimulationState::handle_cpu_bus_read. -/
def handle_cpu_bus_read (cfg : Config) (s : SimState) : Option SimState :=
  if is_node_high s NODE_CPU_RW then
    let a := read_cpu_address_bus s
    let r := cpu_read s a
    if r.2 then float_cpu_db cfg s else write_cpu_db cfg s r.1
  else some s

/-- SimulationState::handle_cpu_bus_write. -/
def handle_cpu_bus_write (cfg : Config) (s : SimState) : Option SimState :=
  if !is_node_high s NODE_CPU_RW then
    some (cpu_write s (read_cpu_address_bus s) (read_cpu_data_bus s))
  else some s

/-! ### Video sampler and half_step -/

/-- The pclk1-gated video sampler at the end of half_step. -/
def video_sample (s : SimState) : SimState :=
  if read_bit s NODE_PCLK1 > 0 then
    let hpos : Int := (read_hpos s : Int) - 2
    if hpos ≠ s.prevHpos then
      let vpos := read_vpos s
      let s1 :=
        if 0 ≤ hpos ∧ hpos < 256 ∧ vpos < 240 then
          let pe :=
            read_bit s NODE_PAL_D0_OUT |||
            (read_bit s NODE_PAL_D1_OUT <<< 1) |||
            (read_bit s NODE_PAL_D2_OUT <<< 2) |||
            (read_bit s NODE_PAL_D3_OUT <<< 3) |||
            (read_bit s NODE_PAL_D4_OUT <<< 4) |||
            (read_bit s NODE_PAL_D5_OUT <<< 5)
          let fb := updf s.framebuffer ((vpos <<< 8) ||| hpos.toNat) (PALETTE_ARGB.getD pe 0)
          { s with framebuffer := fb }
        else s
      { s1 with prevHpos := hpos }
    else s
  else s

/-- SimulationState::half_step. -/
def half_step (cfg : Config) (s : SimState) : Option SimState :=
  let cpuClk := is_node_high s NODE_CPU_CLK0
  let clk := is_node_high s NODE_CLK0
  do
  let s ← if clk then set_low cfg s NODE_CLK0 else set_high cfg s NODE_CLK0
  let s ←
    if s.stepCycleCount > 0 then
      let s := { s with stepCycleCount := s.stepCycleCount - 1 }
      if s.stepCycleCount = 0 then set_high cfg s NODE_IO_CE else some s
    else
      if is_node_high s NODE_CPU_AB13 && !is_node_high s NODE_CPU_AB14 &&
          !is_node_high s NODE_CPU_AB15 && is_node_high s NODE_CPU_CLK0 then
        -- simulate the 74139 decoder
        (set_low cfg s NODE_IO_CE).map (fun s => { s with stepCycleCount := 11 })
      else some s
  let s ← handle_chr_bus cfg s
  let s ←
    if cpuClk ≠ is_node_high s NODE_CPU_CLK0 then
      if cpuClk then handle_cpu_bus_read cfg s else handle_cpu_bus_write cfg s
    else some s
  some (video_sample s)

/-! ### Memory pokes (set_bit users) and power-on -/

/-- SimulationState::palette_write. -/
def palette_write (cfg : Config) (s : SimState) (addr val : Nat) : Option SimState :=
  (List.range 6).foldlM
    (fun s b =>
      let p := cfg.paletteNodes addr b
      if val &&& (1 <<< b) > 0 then set_bit cfg s p.2 p.1 else set_bit cfg s p.1 p.2)
    s

/-- SimulationState::sprite_write. -/
def sprite_write (cfg : Config) (s : SimState) (addr val : Nat) : Option SimState :=
  (List.range 8).foldlM
    (fun s b =>
      let p := cfg.spriteNodes addr b
      if val &&& (1 <<< b) > 0 then set_bit cfg s p.2 p.1 else set_bit cfg s p.1 p.2)
    s

/-- Iterated monadic application (the `for _ in 0..k` loops of init). -/
def repeat_op (f : SimState → Option SimState) : Nat → SimState → Option SimState
  | 0, s => some s
  | k + 1, s =>
    match f s with
    | none => none
    | some s1 => repeat_op f k s1

/-- One `set_high(clk0); set_low(clk0)` pulse of init. -/
def clk_pulse (cfg : Config) (s : SimState) : Option SimState :=
  match set_high cfg s NODE_CLK0 with
  | none => none
  | some s1 => set_low cfg s1 NODE_CLK0

/-- The clock toggle of the soft-reset loop of init. -/
def clk_toggle (cfg : Config) (s : SimState) : Option SimState :=
  if is_node_high s NODE_CLK0 then set_low cfg s NODE_CLK0
  else set_high cfg s NODE_CLK0

/-- SimulationState::init. -/
def init_sim (cfg : Config) (s : SimState) (softReset : Bool) : Option SimState :=
  let s := { s with prevHpos := -1 }
  do
  let s ←
    if softReset then do
      let s ← set_low cfg s NODE_RESET
      -- 0..=(12 * 8 * 2) is 193 iterations
      let s ← repeat_op (clk_toggle cfg) 193 s
      set_high cfg s NODE_RESET
    else
      let s := { s with
        framebuffer := fun _ => 0,
        cpuRam := fun _ => 0,
        prgRam := fun _ => 0,
        chrRam := fun _ => 0,
        nametableRam := fun _ _ => 0 }
      let s := { s with
        state := updf (updf (fun _ => false) NODE_GND false) NODE_PWR true,
        floating := updf (updf (fun _ => true) NODE_GND false) NODE_PWR false,
        tOn := cfg.transInitPower }
      do
      let s ← set_low cfg s NODE_RESET
      let s ← set_low cfg s NODE_CLK0
      let s ← set_high cfg s NODE_IO_CE
      let s ← set_high cfg s NODE_INT
      let s ← repeat_op (clk_pulse cfg) 6 s
      let s ← set_low cfg s NODE_CPU_SO
      let s ← set_high cfg s NODE_CPU_IRQ
      let s ← set_high cfg s NODE_CPU_NMI
      let s ← recalc_node_list cfg s cfg.allRecalcNodes
      let s ← repeat_op (clk_pulse cfg) 96 s
      set_high cfg s NODE_RESET
  some { s with
    chrAddress := 0,
    prevPpuRead := true,
    prevPpuWrite := true,
    prevPpuAle := false }

/-- The dynamic state produced by SimulationState::new: node states all
low with the segdefs pullups, transistors all off, both worklist buffers
empty, memories zeroed, horizontal mirroring. -/
def new_state (cfg : Config) : SimState where
  state := fun _ => false
  pullup := cfg.initPullup
  pulldown := fun _ => false
  floating := fun _ => true
  tOn := fun _ => false
  lists0 := []
  lists1 := []
  curIdx := false
  processed := fun _ => false
  stepCycleCount := 0
  prevPpuAle := false
  prevPpuWrite := true
  prevPpuRead := true
  chrAddress := 0
  lastAddress := 0
  mirroring := Mirroring.Horizontal
  chrRam := fun _ => 0
  nametableRam := fun _ _ => 0
  cpuRam := fun _ => 0
  prgRam := fun _ => 0
  lastCpuDbValue := 0
  lastData := 0
  prevHpos := -1
  framebuffer := fun _ => 0

/-- SimulationState::load_rom, after the external cartridge loader has
produced the mirroring mode and the (already 32-KiB-extended) PRG and the
CHR images; a mapper other than 0 or a mirroring other than horizontal or
vertical aborts in the source. -/
def load_rom (cfg : Config) (s : SimState) (mir : Mirroring) (prg chr : Nat → Nat) :
    Option SimState :=
  if mir = Mirroring.Horizontal ∨ mir = Mirroring.Vertical then
    match init_sim cfg { s with mirroring := mir } false with
    | none => none
    | some s1 => some { s1 with chrRam := chr, prgRam := prg }
  else none

/-! ### Preprocessor: setup_nodes area accumulation -/

/-- Entry `k` of a segment record, as the i64 of the source arithmetic. -/
def segI (seg : List Nat) (k : Nat) : Int := (seg.getD k 0 : Int)

/-- The `loop` of setup_nodes (preprocessor/mod.rs): starting at j = 3,
while j + 4 < len, add seg[j] * seg[j+3] - seg[j+2] * seg[j-1] and step j
by 2.  The while loop is embedded with structural fuel; `seg.length` is
always enough fuel, since j grows by 2 every iteration. -/
def seg_area_loop (seg : List Nat) : Nat → Nat → Int
  | 0, _ => 0
  | fuel + 1, j =>
    if j + 4 ≥ seg.length then 0
    else (segI seg j * segI seg (j + 3) - segI seg (j + 2) * segI seg (j - 1)) +
      seg_area_loop seg fuel (j + 2)

/-- The polygon accumulator of setup_nodes for one segment record: the
initial wrap term plus the loop, with the absolute value taken at the
end. -/
def seg_area (seg : List Nat) : Nat :=
  (segI seg (seg.length - 2) * segI seg 4 - segI seg 3 * segI seg (seg.length - 1) +
    seg_area_loop seg seg.length 3).natAbs

/-- The total area setup_nodes accumulates into node `w` from a list of
segment records: every record whose head identifier is `w` contributes
seg_area, except that the ground and power nodes skip area computation. -/
def setup_nodes_area (segdefs : List (List Nat)) (w : Nat) : Nat :=
  if w = NODE_GND ∨ w = NODE_PWR then 0
  else ((segdefs.filter (fun seg => seg.getD 0 0 = w)).map seg_area).sum

/-! ### Well-formedness of a built topology

These are the properties that setup_transistors guarantees for the static
data it produces: `gates n` holds exactly the transistors whose gate is
`n`, channel endpoints are valid node numbers, and
`transistors_initial_power_state` captures `gate == NODE_PWR`. -/

structure WFConfig (cfg : Config) : Prop where
  gnd_lt : NODE_GND < cfg.numNodes
  pwr_lt : NODE_PWR < cfg.numNodes
  c1_lt : ∀ t, cfg.c1 t < cfg.numNodes
  c2_lt : ∀ t, cfg.c2 t < cfg.numNodes
  gates_sound : ∀ m t, t ∈ cfg.gates m → cfg.gateOf t = m
  gates_complete : ∀ t, t < cfg.numTransistors → t ∈ cfg.gates (cfg.gateOf t)
  init_power : ∀ t, cfg.transInitPower t = decide (cfg.gateOf t = NODE_PWR)

/-- The transistor/gate coupling invariant: every transistor is on exactly
when its gate node is high. -/
def gate_inv (cfg : Config) (s : SimState) : Prop :=
  ∀ t, t < cfg.numTransistors → s.tOn t = s.state (cfg.gateOf t)

/-- Equality of the two fields the relaxation driver rewrites (used to
transport gate_inv across steps that touch neither). -/
def dyn_core_eq (s t : SimState) : Prop :=
  t.state = s.state ∧ t.tOn = s.tOn

/-- Equality of every SimState field the relaxation driver never writes
(everything except node states, transistor flags and solver scratch). -/
def frame_eq (s t : SimState) : Prop :=
  t.pullup = s.pullup ∧ t.pulldown = s.pulldown ∧ t.floating = s.floating ∧
  t.stepCycleCount = s.stepCycleCount ∧ t.prevPpuAle = s.prevPpuAle ∧
  t.prevPpuRead = s.prevPpuRead ∧ t.prevPpuWrite = s.prevPpuWrite ∧
  t.chrAddress = s.chrAddress ∧ t.lastAddress = s.lastAddress ∧
  t.mirroring = s.mirroring ∧ t.chrRam = s.chrRam ∧
  t.nametableRam = s.nametableRam ∧ t.cpuRam = s.cpuRam ∧ t.prgRam = s.prgRam ∧
  t.lastCpuDbValue = s.lastCpuDbValue ∧ t.lastData = s.lastData ∧
  t.prevHpos = s.prevHpos ∧ t.framebuffer = s.framebuffer

/-! ### Specification-side functions for the value resolver -/

/-- The first node of the group, in stored order, that carries a pull
flag, mapped to the value it dictates (pullup gives high). -/
def resolve_first_pull (s : SimState) (g : List Nat) : Option Bool :=
  (g.find? (fun n => s.pullup n || s.pulldown n)).map (fun n => s.pullup n)

/-- Total area of the group members whose current state is `v`. -/
def group_area (cfg : Config) (s : SimState) (v : Bool) (g : List Nat) : Nat :=
  ((g.filter (fun n => s.state n == v)).map cfg.area).sum

/-! ### Unconditional pass iteration, for stating the termination claim -/

/-- `k` unconditional rounds of the relaxation loop: one pass over the
current worklist followed by the clear-bits-and-swap bookkeeping. -/
def passes (cfg : Config) : Nat → SimState → Option SimState
  | 0, s => some s
  | k + 1, s =>
    match run_pass cfg (cur_list s) s with
    | none => none
    | some t => passes cfg k (swap_step t)

/-- The successor worklist becomes empty during pass `k` (counting the
passes from 0). -/
def empties_at (cfg : Config) (s : SimState) (k : Nat) : Prop :=
  ∃ u t, passes cfg k s = some u ∧ run_pass cfg (cur_list u) u = some t ∧
    next_list t = []

/-! ### Specification-side functions for the shoelace formula -/

/-- The (x, y) vertex pairs of a segment record, starting at index 3. -/
def to_pairs : List Nat → List (Int × Int)
  | x :: y :: rest => ((x : Int), (y : Int)) :: to_pairs rest
  | _ => []

/-- Cyclic shoelace sum over a tail of the vertex list, with `v0` the
first vertex (for the wrap-around term). -/
def shoelace_aux (v0 : Int × Int) : List (Int × Int) → Int
  | [] => 0
  | [vl] => vl.1 * v0.2 - v0.1 * vl.2
  | a :: b :: rest => (a.1 * b.2 - b.1 * a.2) + shoelace_aux v0 (b :: rest)

/-- The shoelace polygon sum of the claim: over consecutive vertices,
x_i * y_(i+1) - x_(i+1) * y_i, including the wrap-around term between the
last and the first vertex. -/
def shoelace : List (Int × Int) → Int
  | [] => 0
  | v0 :: rest => shoelace_aux v0 (v0 :: rest)

/-- One term of the setup_nodes loop at source index j. -/
def loop_term (seg : List Nat) (j : Nat) : Int :=
  segI seg j * segI seg (j + 3) - segI seg (j + 2) * segI seg (j - 1)

/-- Abscissa of vertex k of a segment record. -/
def seg_x (seg : List Nat) (k : Nat) : Int := segI seg (3 + 2 * k)

/-- Ordinate of vertex k of a segment record. -/
def seg_y (seg : List Nat) (k : Nat) : Int := segI seg (4 + 2 * k)

/-- The record entry two places before the abscissa of vertex k: the
ordinate of vertex k-1 for k bigger than 0, and the record's third field
(the layer column) for k = 0. -/
def seg_py (seg : List Nat) (k : Nat) : Int := segI seg (2 + 2 * k)

/-! ### Concrete topologies and states for witnesses and counterexamples -/

/-- A small topology with six nodes and no transistors. -/
def cfg0 : Config where
  numNodes := 6
  numTransistors := 0
  gateOf := fun _ => 0
  c1 := fun _ => 0
  c2 := fun _ => 0
  gates := fun _ => []
  c1c2s := fun _ => []
  area := fun _ => 0
  initPullup := fun _ => false
  transInitPower := fun _ => false
  allRecalcNodes := []
  paletteNodes := fun _ _ => (-1, -1)
  spriteNodes := fun _ _ => (-1, -1)

/-- cfg0 with node 3 given area 5 (so that a high node 3 with no pulls is
stable under the capacitance rule). -/
def cfg_area : Config := { cfg0 with area := fun n => if n = 3 then 5 else 0 }

/-- A topology with one conducting transistor: transistor 0 has channel
ends 3 and 4 and gate 5. -/
def cfgT : Config :=
  { cfg0 with
    numTransistors := 1,
    gateOf := fun _ => 5,
    c1 := fun _ => 3,
    c2 := fun _ => 4,
    gates := fun n => if n = 5 then [0] else [],
    c1c2s := fun n => if n = 3 ∨ n = 4 then [0] else [],
    area := fun n => if n = 3 then 5 else 1 }

/-- State over cfgT: node 3 pulled down, node 4 pulled up, gate node 5
high, transistor 0 on (so nodes 3 and 4 form one group in that order). -/
def stT : SimState :=
  { new_state cfgT with
    pulldown := fun n => n = 3,
    pullup := fun n => n = 4,
    state := fun n => n = 5,
    tOn := fun t => t = 0 }

/-- State over cfg_area: node 3 is high with no pull on it; the network
is settled (node 3 keeps its state by area majority). -/
def st8 : SimState := { new_state cfg_area with state := fun n => n = 3 }

/-- State over cfg_area: node 3 is high and already pulled up. -/
def st8w : SimState := { st8 with pullup := fun n => n = 3 }

/-- State in which the CPU data bus nodes read 0xFF (the byte most
recently present on the bus is 255) and CPU R/W is low. -/
def st6 : SimState :=
  { new_state cfg0 with state := fun n => decide (n ∈ CPU_DB_NODES) }

/-- State with ALE, /RD and /WR all high and the 14-bit PPU address bus
reading 5, while the saved ALE snapshot is low: a rising edge of ALE as
seen by handle_chr_bus. -/
def st4 : SimState :=
  { new_state cfg0 with
    state := fun n => decide (n ∈ [NODE_ALE, NODE_RD, NODE_WR, 1991, 2650]) }

/-- st4 with the saved ALE snapshot high: not an edge at all. -/
def st4b : SimState := { st4 with prevPpuAle := true }

/-- Invariant of the group accumulator during the collector walk: no
duplicates, all members valid non-rail node numbers. -/
def good_acc (N : Nat) (acc : GroupAcc) : Prop :=
  acc.group.Nodup ∧ (∀ m ∈ acc.group, m < N) ∧ NODE_GND ∉ acc.group ∧ NODE_PWR ∉ acc.group

/-- The tuple of every SimState field the relaxation driver never writes
(everything except node states, transistor flags and solver scratch), used
for frame lemmas. -/
def frame_of (s : SimState) :=
  (s.pullup, s.pulldown, s.floating, s.stepCycleCount, s.prevPpuAle, s.prevPpuRead,
   s.prevPpuWrite, s.chrAddress, s.lastAddress, s.mirroring, s.chrRam, s.nametableRam,
   s.cpuRam, s.prgRam, s.lastCpuDbValue, s.lastData, s.prevHpos, s.framebuffer)

/-! ## Theorems -/

/-- C1 (counterexample): a group collected by the group collector in which
a pulled-down node (3) precedes a pulled-up node (4), with neither rail
flag set: the claim demands high (a pullup anywhere wins regardless of
stored order), but get_node_value returns low, because the scan returns at
the first pull flag it meets. -/
theorem c1_counterexample :
    get_node_group cfgT stT 3 = some ⟨[3, 4], false, false⟩ ∧
    stT.pullup 4 = true ∧
    get_node_value cfgT stT ⟨[3, 4], false, false⟩ = false := by decide

/-- C4 (code evaluated at the failing input): on a true rising edge of ALE
(saved snapshot low, current sample high) with the PPU address bus reading
5, handle_chr_bus leaves chr_address at 0 instead of latching 5; with the
snapshot already high (no edge) it does latch.  The latch condition of the
source is prev AND current, not the rising edge its own comment states. -/
theorem c4_ale_latch_level_not_edge :
    st4.prevPpuAle = false ∧ is_node_high st4 NODE_ALE = true ∧ read_ab st4 = 5 ∧
    st4.chrAddress = 0 ∧
    (handle_chr_bus cfg0 st4).map (fun u => u.chrAddress) = some 0 ∧
    st4b.prevPpuAle = true ∧
    (handle_chr_bus cfg0 st4b).map (fun u => u.chrAddress) = some 5 := by decide

/-- C5 (counterexample): the record with head 7, layer 0 and vertices
(0,0), (2,0), (0,2) has shoelace absolute value 4, but setup_nodes adds
area 0 for it: the loop multiplies by the entry two places before each
abscissa (seg[j-1]) instead of the current ordinate, and stops one edge
short of the claimed formula. -/
theorem c5_counterexample :
    setup_nodes_area [[7, 0, 0, 0, 0, 2, 0, 0, 2]] 7 = 0 ∧
    (shoelace (to_pairs ([7, 0, 0, 0, 0, 2, 0, 0, 2].drop 3))).natAbs = 4 := by decide

/-- C6 (code evaluated at the failing input): with 0xFF present on the CPU
data bus nodes, a CPU write cycle is handled (handle_cpu_bus_write reads
the bus value 255), yet last_cpu_db_value stays 0 - the initial value from
new() - and cpu_read of the open-bus address 0x4000 returns (0, true)
rather than the byte most recently present on the bus; cpu_write to that
address is a no-op.  lib.rs never assigns last_cpu_db_value after
construction. -/
theorem c6_open_bus_returns_stale_zero :
    read_cpu_data_bus st6 = 255 ∧
    (handle_cpu_bus_write cfg0 st6).map (fun u => (u.lastCpuDbValue, cpu_read u 0x4000)) =
      some (0, (0, true)) ∧
    cpu_write st6 0x4000 255 = st6 := by
  refine ⟨by decide, by decide, rfl⟩

/-- C7 (counterexample): with X = 0 and fresh nametables, ppu_write 0x2000
X makes ppu_read 0x2400 return X, but ppu_read 0x2800 also returns 0 = X,
contradicting the claimed inequality for every byte X. -/
theorem c7_counterexample :
    ((ppu_write (new_state cfg0) 0x2000 0).bind (fun s => ppu_read s 0x2400)) = some 0 ∧
    ((ppu_write (new_state cfg0) 0x2000 0).bind (fun s => ppu_read s 0x2800)) = some 0 := by
  decide

/-- C8 (counterexample): node 3 is high and settled (it keeps its level by
area majority, with pullup clear); set_high(3) returns, but the node's
pullup byte has changed from false to true, so the simulation state is not
byte-identical. -/
theorem c8_counterexample :
    st8.state 3 = true ∧ st8.pullup 3 = false ∧
    get_node_group cfg_area st8 3 = some ⟨[3], false, false⟩ ∧
    get_node_value cfg_area st8 ⟨[3], false, false⟩ = true ∧
    (set_high cfg_area st8 3).map (fun u => u.pullup 3) = some true := by decide

/-- C9 (counterexample): set_low(5) activates the pulldown of node 5 and
returns with the floating flag of node 5 still true, although the claim
requires the flag to be clear whenever a pull is active. -/
theorem c9_counterexample :
    (set_low cfg0 (new_state cfg0) 5).map (fun u => (u.pulldown 5, u.floating 5)) =
      some (true, true) := by decide

theorem good_acc_length {N : Nat} {acc : GroupAcc} (h : good_acc N acc) :
    acc.group.length ≤ N := by
  obtain ⟨hn, hb, -, -⟩ := h
  have hcard : acc.group.toFinset.card = acc.group.length :=
    List.toFinset_card_of_nodup hn
  have hsub : acc.group.toFinset ⊆ Finset.range N := by
    intro x hx
    exact Finset.mem_range.2 (hb x (List.mem_toFinset.1 hx))
  have := Finset.card_le_card hsub
  simpa [hcard, Finset.card_range] using this

theorem add_group_total (cfg : Config) (onf : Nat → Bool)
    (hc1 : ∀ t, cfg.c1 t < cfg.numNodes) (hc2 : ∀ t, cfg.c2 t < cfg.numNodes) :
    ∀ fuel n acc, good_acc cfg.numNodes acc → n < cfg.numNodes →
      cfg.numNodes + 1 ≤ fuel + acc.group.length →
      ∃ acc2, add_node_to_group cfg onf fuel n acc = some acc2 ∧
        good_acc cfg.numNodes acc2 ∧ acc.group <+: acc2.group := by
  intro fuel
  induction fuel with
  | zero =>
    intro n acc hg _ hlen
    have := good_acc_length hg
    omega
  | succ fuel ih =>
    intro n acc hg hn hlen
    by_cases hgnd : n = NODE_GND
    · exact ⟨{ acc with hasGround := true }, by simp [add_node_to_group, hgnd],
        hg, List.prefix_refl _⟩
    by_cases hpwr : n = NODE_PWR
    · refine ⟨{ acc with hasPower := true }, ?_, hg, List.prefix_refl _⟩
      simp [add_node_to_group, hgnd, hpwr]
      intro hq
      exact absurd hq (by decide)
    by_cases hmem : n ∈ acc.group
    · exact ⟨acc, by simp [add_node_to_group, hgnd, hpwr, hmem], hg, List.prefix_refl _⟩
    -- the node is pushed and the conducting neighbours are folded over
    have hinner : ∀ (l : List Nat) (a : GroupAcc), good_acc cfg.numNodes a →
        cfg.numNodes + 1 ≤ fuel + a.group.length →
        ∃ b, List.foldlM
            (fun a ti =>
              if onf ti then add_node_to_group cfg onf fuel (other_end cfg n ti) a
              else some a) a l = some b ∧
          good_acc cfg.numNodes b ∧ a.group <+: b.group := by
      intro l
      induction l with
      | nil => exact fun a ha _ => ⟨a, by simp, ha, List.prefix_refl _⟩
      | cons ti rest ihl =>
        intro a ha hla
        by_cases hon : onf ti
        · have hoe : other_end cfg n ti < cfg.numNodes := by
            unfold other_end
            split
            · exact hc2 ti
            · exact hc1 ti
          obtain ⟨b, hb, hgb, hpre⟩ := ih (other_end cfg n ti) a ha hoe hla
          have hlb : cfg.numNodes + 1 ≤ fuel + b.group.length := by
            have := hpre.length_le
            omega
          obtain ⟨c, hc, hgc, hpre2⟩ := ihl b hgb hlb
          refine ⟨c, ?_, hgc, hpre.trans hpre2⟩
          simp [List.foldlM_cons, hon, hb, hc]
        · obtain ⟨c, hc, hgc, hpre⟩ := ihl a ha hla
          refine ⟨c, ?_, hgc, hpre⟩
          simp [List.foldlM_cons, hon, hc]
    have hga : good_acc cfg.numNodes { acc with group := acc.group ++ [n] } := by
      obtain ⟨h1, h2, h3, h4⟩ := hg
      refine ⟨?_, ?_, ?_, ?_⟩
      · simp [List.nodup_append, h1, hmem]
      · intro m hm
        rcases List.mem_append.1 hm with hm | hm
        · exact h2 m hm
        · simp at hm; omega
      · intro hq
        rcases List.mem_append.1 hq with hq | hq
        · exact h3 hq
        · have : NODE_GND = n := by simpa using hq
          exact hgnd this.symm
      · intro hq
        rcases List.mem_append.1 hq with hq | hq
        · exact h4 hq
        · have : NODE_PWR = n := by simpa using hq
          exact hpwr this.symm
    have hla : cfg.numNodes + 1 ≤ fuel + ({ acc with group := acc.group ++ [n] } : GroupAcc).group.length := by
      simp; omega
    obtain ⟨b, hb, hgb, hpre⟩ := hinner (cfg.c1c2s n) _ hga hla
    refine ⟨b, ?_, hgb, ?_⟩
    · simp [add_node_to_group, hgnd, hpwr, hmem]
      exact hb
    · exact (List.prefix_append acc.group [n]).trans hpre

theorem recalc_loop_next_empty (cfg : Config) :
    ∀ fuel s s', recalc_loop cfg fuel s = some s' → next_list s' = [] := by
  intro fuel
  induction fuel with
  | zero => intro s s' h; simp [recalc_loop] at h
  | succ fuel ih =>
    intro s s' h
    rcases hrp : run_pass cfg (cur_list s) s with _ | t
    · simp [recalc_loop, hrp] at h
    · simp only [recalc_loop, hrp] at h
      by_cases hne : next_list t = []
      · rw [if_pos hne] at h
        cases h
        exact hne
      · rw [if_neg hne] at h
        exact ih _ _ h

theorem recalc_loop_isSome_iff (cfg : Config) :
    ∀ fuel s, (recalc_loop cfg fuel s).isSome ↔ ∃ k, k < fuel ∧ empties_at cfg s k := by
  intro fuel
  induction fuel with
  | zero =>
    intro s
    simp [recalc_loop]
  | succ fuel ih =>
    intro s
    rcases hrp : run_pass cfg (cur_list s) s with _ | t
    · simp only [recalc_loop, hrp, Option.isSome_none, Bool.false_eq_true, false_iff]
      rintro ⟨k, -, u, v, hp, hr, -⟩
      cases k with
      | zero =>
        simp only [passes, Option.some.injEq] at hp
        subst hp
        rw [hrp] at hr
        cases hr
      | succ k =>
        simp only [passes, hrp] at hp
        cases hp
    · simp only [recalc_loop, hrp]
      by_cases hne : next_list t = []
      · simp only [if_pos hne, Option.isSome_some, true_iff]
        exact ⟨0, by omega, s, t, by simp [passes], hrp, hne⟩
      · rw [if_neg hne]
        rw [ih (swap_step t)]
        constructor
        · rintro ⟨k, hk, he⟩
          refine ⟨k + 1, by omega, ?_⟩
          obtain ⟨u, v, hp, hr, hv⟩ := he
          exact ⟨u, v, by simp [passes, hrp, hp], hr, hv⟩
        · rintro ⟨k, hk, u, v, hp, hr, hv⟩
          cases k with
          | zero =>
            simp only [passes, Option.some.injEq] at hp
            subst hp
            rw [hrp] at hr
            cases hr
            exact absurd hv hne
          | succ k =>
            simp only [passes, hrp] at hp
            exact ⟨k, by omega, u, v, hp, hr, hv⟩

/-- C3: the relaxation driver returns normally exactly when the successor
worklist empties within the 99 permitted passes, and any state it returns
has an empty successor worklist. -/
theorem c3_claim (cfg : Config) (s : SimState) (seeds : List Nat) :
    (∀ s', recalc_node_list cfg s seeds = some s' → next_list s' = []) ∧
    ((recalc_node_list cfg s seeds).isSome ↔
      ∃ k, k < 99 ∧ empties_at cfg (swap_list_init s seeds) k) := by
  constructor
  · intro s' h
    exact recalc_loop_next_empty cfg 99 _ s' h
  · exact recalc_loop_isSome_iff cfg 99 (swap_list_init s seeds)

theorem c3_witness :
    (recalc_node_list cfg0 (new_state cfg0) [3]).isSome = true ∧
    next_list ((recalc_node_list cfg0 (new_state cfg0) [3]).getD (new_state cfg0)) = [] := by
  refine ⟨by decide, ?_⟩
  rcases hre : recalc_node_list cfg0 (new_state cfg0) [3] with _ | s'
  · have hs : (recalc_node_list cfg0 (new_state cfg0) [3]).isSome = true := by decide
    rw [hre] at hs
    simp at hs
  · simpa [hre] using (c3_claim cfg0 (new_state cfg0) [3]).1 s' hre

theorem group_area_cons (cfg : Config) (s : SimState) (v : Bool) (n : Nat) (rest : List Nat) :
    group_area cfg s v (n :: rest) =
      (if s.state n == v then cfg.area n else 0) + group_area cfg s v rest := by
  simp only [group_area, List.filter_cons]
  split
  · simp
  · simp

theorem value_area_loop_eq (cfg : Config) (s : SimState) :
    ∀ (g : List Nat) (hi lo : Nat), value_area_loop cfg s g hi lo =
      match g.find? (fun m => s.pullup m || s.pulldown m) with
      | some m => s.pullup m
      | none => decide (hi + group_area cfg s true g > lo + group_area cfg s false g) := by
  intro g
  induction g with
  | nil => intro hi lo; simp [value_area_loop, group_area]
  | cons n rest ih =>
    intro hi lo
    by_cases hu : s.pullup n
    · have hfind : List.find? (fun m => s.pullup m || s.pulldown m) (n :: rest) = some n := by
        simp [List.find?_cons, hu]
      rw [hfind]
      simp [value_area_loop, hu]
    · by_cases hd : s.pulldown n
      · have hfind : List.find? (fun m => s.pullup m || s.pulldown m) (n :: rest) = some n := by
          simp [List.find?_cons, hu, hd]
        rw [hfind]
        simp [value_area_loop, hu, hd]
      · have hfind : List.find? (fun m => s.pullup m || s.pulldown m) (n :: rest) =
            List.find? (fun m => s.pullup m || s.pulldown m) rest := by
          simp [List.find?_cons, hu, hd]
        rw [hfind, group_area_cons, group_area_cons]
        have hloop : value_area_loop cfg s (n :: rest) hi lo =
            if s.state n then value_area_loop cfg s rest (hi + cfg.area n) lo
            else value_area_loop cfg s rest hi (lo + cfg.area n) := by
          simp [value_area_loop, hu, hd]
        rw [hloop]
        rcases hfr : List.find? (fun m => s.pullup m || s.pulldown m) rest with _ | m
        · by_cases hs : s.state n
          · rw [if_pos hs, ih, hfr]
            simp only [hs, beq_self_eq_true, if_true, Bool.true_eq_false, beq_iff_eq]
            rw [if_neg not_false]
            exact decide_eq_decide.2 (by omega)
          · rw [if_neg hs, ih, hfr]
            have hsf : s.state n = false := by simpa using hs
            simp only [hsf, beq_self_eq_true, if_true, Bool.false_eq_true, beq_iff_eq]
            rw [if_neg not_false]
            exact decide_eq_decide.2 (by omega)
        · by_cases hs : s.state n
          · rw [if_pos hs, ih, hfr]
          · rw [if_neg hs, ih, hfr]
/-- C1 (amended): for a group whose rail flags are both clear after the
weak-drive adjustment, get_node_value returns the verdict of the FIRST
stored node carrying a pull flag (high for pullup, low for pulldown), and
otherwise compares the total area of the currently-high nodes against the
currently-low ones (a tie resolves low). -/
theorem c1_value_resolver_order (cfg : Config) (s : SimState) (acc : GroupAcc)
    (h : rail_flags_after_adjust acc = (false, false)) :
    get_node_value cfg s acc =
      (resolve_first_pull s acc.group).getD
        (decide (group_area cfg s true acc.group > group_area cfg s false acc.group)) := by
  unfold get_node_value
  rw [h]
  simp only [Bool.false_eq_true, if_false]
  rw [value_area_loop_eq]
  unfold resolve_first_pull
  rcases acc.group.find? (fun m => s.pullup m || s.pulldown m) with _ | m
  · simp
  · simp

theorem c1_witness :
    rail_flags_after_adjust ⟨[3, 4], false, false⟩ = (false, false) ∧
    get_node_value cfgT stT ⟨[3, 4], false, false⟩ =
      (resolve_first_pull stT [3, 4]).getD
        (decide (group_area cfgT stT true [3, 4] > group_area cfgT stT false [3, 4])) :=
  ⟨by decide, c1_value_resolver_order cfgT stT ⟨[3, 4], false, false⟩ (by decide)⟩

theorem wf_cfg0 : WFConfig cfg0 := by
  refine ⟨by decide, by decide, fun t => by show (0:Nat) < 6; decide,
    fun t => by show (0:Nat) < 6; decide, ?_, ?_, fun t => rfl⟩
  · intro m t h
    simp [cfg0] at h
  · intro t ht
    exact absurd ht (by simp [cfg0])

theorem wf_cfgT : WFConfig cfgT := by
  refine ⟨by decide, by decide, fun t => by show (3:Nat) < 6; decide,
    fun t => by show (4:Nat) < 6; decide, ?_, ?_, fun t => rfl⟩
  · intro m t h
    by_cases hm : m = 5
    · subst hm
      simp [cfgT, cfg0] at h
      subst h
      rfl
    · simp [cfgT, cfg0, hm] at h
  · intro t ht
    have ht0 : t = 0 := by
      have : cfgT.numTransistors = 1 := rfl
      omega
    subst ht0
    decide

/-- C10: with fuel numNodes + 1 the embedded recursive walk of the group
collector returns a group on every seed below the node count, and that
group is duplicate-free and contains neither the ground nor the power
node. -/
theorem c10_collector_terminates (cfg : Config) (s : SimState) (wf : WFConfig cfg)
    (seed : Nat) (hseed : seed < cfg.numNodes) :
    ∃ acc, get_node_group cfg s seed = some acc ∧
      acc.group.Nodup ∧ NODE_GND ∉ acc.group ∧ NODE_PWR ∉ acc.group := by
  obtain ⟨acc2, h1, ⟨hn, -, h3, h4⟩, -⟩ :=
    add_group_total cfg s.tOn wf.c1_lt wf.c2_lt (cfg.numNodes + 1) seed ⟨[], false, false⟩
      ⟨List.nodup_nil, by simp, by simp, by simp⟩ hseed (by simp)
  exact ⟨acc2, h1, hn, h3, h4⟩

theorem c10_witness :
    ∃ acc, get_node_group cfgT stT 3 = some acc ∧
      acc.group.Nodup ∧ NODE_GND ∉ acc.group ∧ NODE_PWR ∉ acc.group :=
  c10_collector_terminates cfgT stT wf_cfgT 3 (by decide)

/-- C7 (amended): under the power-on horizontal mirroring, for every
nonzero byte X written through ppu_write(0x2000, X), ppu_read(0x2400)
returns X while ppu_read(0x2800) returns 0, a value different from X (at
X = 0 the final inequality of the original claim fails). -/
theorem c7_horizontal_mirroring (X : Nat) (hX : X < 256) (hnz : X ≠ 0) :
    ∃ s, ppu_write (new_state cfg0) 0x2000 X = some s ∧
      ppu_read s 0x2400 = some X ∧ ppu_read s 0x2800 = some 0 ∧
      ppu_read s 0x2800 ≠ some X := by
  refine ⟨{ new_state cfg0 with nametableRam := upd2 (fun _ _ => 0) 0 0 X }, rfl, rfl, rfl, ?_⟩
  intro hcon
  exact hnz (Option.some.inj hcon).symm

theorem c7_witness :
    ∃ s, ppu_write (new_state cfg0) 0x2000 5 = some s ∧
      ppu_read s 0x2400 = some 5 ∧ ppu_read s 0x2800 = some 0 ∧
      ppu_read s 0x2800 ≠ some 5 :=
  c7_horizontal_mirroring 5 (by decide) (by decide)

theorem frame_add_recalc (s : SimState) (n : Nat) :
    frame_of (add_recalc_node s n) = frame_of s := by
  unfold add_recalc_node push_next
  split_ifs <;> rfl

theorem frame_turn_on (cfg : Config) (s : SimState) (i : Nat) :
    frame_of (turn_transistor_on cfg s i) = frame_of s := by
  unfold turn_transistor_on
  split_ifs
  · rfl
  · rw [frame_add_recalc]
    rfl

theorem frame_turn_off (cfg : Config) (s : SimState) (i : Nat) :
    frame_of (turn_transistor_off cfg s i) = frame_of s := by
  unfold turn_transistor_off
  split_ifs
  · rw [frame_add_recalc, frame_add_recalc]
    rfl
  · rfl

theorem frame_update_gates (cfg : Config) (v : Bool) :
    ∀ (ts : List Nat) (s : SimState), frame_of (update_gates cfg v ts s) = frame_of s := by
  intro ts
  induction ts with
  | nil => intro s; rfl
  | cons i rest ih =>
    intro s
    show frame_of (update_gates cfg v rest
      (if v then turn_transistor_on cfg s i else turn_transistor_off cfg s i)) = frame_of s
    rw [ih]
    by_cases hv : v
    · rw [if_pos hv, frame_turn_on]
    · rw [if_neg hv, frame_turn_off]

theorem frame_apply_group (cfg : Config) (v : Bool) :
    ∀ (g : List Nat) (s : SimState), frame_of (apply_group_state cfg v g s) = frame_of s := by
  intro g
  induction g with
  | nil => intro s; rfl
  | cons m rest ih =>
    intro s
    show frame_of (apply_group_state cfg v rest
      (if s.state m ≠ v then update_gates cfg v (cfg.gates m) { s with state := updf s.state m v }
       else s)) = frame_of s
    rw [ih]
    split_ifs
    · rw [frame_update_gates]
      rfl
    · rfl

theorem frame_process_node (cfg : Config) (s : SimState) (n : Nat) (s' : SimState)
    (h : process_node cfg s n = some s') : frame_of s' = frame_of s := by
  unfold process_node at h
  split_ifs at h
  · cases h
    rfl
  · rcases hg : get_node_group cfg s n with _ | acc
    · rw [hg] at h
      cases h
    · rw [hg] at h
      cases h
      rw [frame_apply_group]

theorem frame_run_pass (cfg : Config) :
    ∀ (l : List Nat) (s s' : SimState), run_pass cfg l s = some s' → frame_of s' = frame_of s := by
  intro l
  induction l with
  | nil =>
    intro s s' h
    cases h
    rfl
  | cons n rest ih =>
    intro s s' h
    unfold run_pass at h
    rcases hp : process_node cfg s n with _ | s1
    · rw [hp] at h
      cases h
    · rw [hp] at h
      exact (ih s1 s' h).trans (frame_process_node cfg s n s1 hp)

theorem frame_swap_step (s : SimState) : frame_of (swap_step s) = frame_of s := by
  unfold swap_step swap_buffers
  split_ifs <;> rfl

theorem frame_recalc_loop (cfg : Config) :
    ∀ (fuel : Nat) (s s' : SimState), recalc_loop cfg fuel s = some s' →
      frame_of s' = frame_of s := by
  intro fuel
  induction fuel with
  | zero => intro s s' h; simp [recalc_loop] at h
  | succ fuel ih =>
    intro s s' h
    rcases hrp : run_pass cfg (cur_list s) s with _ | t
    · simp [recalc_loop, hrp] at h
    · simp only [recalc_loop, hrp] at h
      by_cases hne : next_list t = []
      · rw [if_pos hne] at h
        cases h
        exact frame_run_pass cfg (cur_list s) s s' hrp
      · rw [if_neg hne] at h
        exact (ih _ _ h).trans ((frame_swap_step t).trans (frame_run_pass cfg _ s t hrp))

theorem frame_recalc (cfg : Config) (s : SimState) (seeds : List Nat) (s' : SimState)
    (h : recalc_node_list cfg s seeds = some s') : frame_of s' = frame_of s := by
  unfold recalc_node_list at h
  exact (frame_recalc_loop cfg 99 _ s' h).trans rfl

theorem frame_floating {s t : SimState} (h : frame_of t = frame_of s) :
    t.floating = s.floating := by
  unfold frame_of at h
  simp only [Prod.mk.injEq] at h
  exact h.2.2.1

theorem floating_recalc (cfg : Config) (s : SimState) (seeds : List Nat) (s' : SimState)
    (h : recalc_node_list cfg s seeds = some s') : s'.floating = s.floating :=
  frame_floating (frame_recalc cfg s seeds s' h)

theorem floating_set_high (cfg : Config) {s s' : SimState} {n : Nat}
    (h : set_high cfg s n = some s') : s'.floating = s.floating := by
  unfold set_high at h
  have e := floating_recalc cfg _ _ s' h
  exact e

theorem floating_set_low (cfg : Config) {s s' : SimState} {n : Nat}
    (h : set_low cfg s n = some s') : s'.floating = s.floating := by
  unfold set_low at h
  have e := floating_recalc cfg _ _ s' h
  exact e

theorem write_byte_pulls_floating :
    ∀ (ns : List Nat) (v : Nat) (s : SimState),
      (write_byte_pulls s ns v).floating = s.floating := by
  intro ns
  induction ns with
  | nil => intro v s; rfl
  | cons n rest ih =>
    intro v s
    show (write_byte_pulls (if v % 2 = 0 then _ else _) rest (v / 2)).floating = s.floating
    rw [ih]
    split_ifs <;> rfl

theorem floating_write_byte (cfg : Config) {s s' : SimState} {ns : List Nat} {v : Nat}
    (h : write_byte cfg s ns v = some s') : s'.floating = s.floating := by
  unfold write_byte at h
  have e := floating_recalc cfg _ _ s' h
  exact e.trans (write_byte_pulls_floating ns v s)

theorem float_pulls_floating :
    ∀ (ns : List Nat) (s : SimState),
      (ns.foldl (fun s n =>
        { s with pulldown := updf s.pulldown n false, pullup := updf s.pullup n false })
        s).floating = s.floating := by
  intro ns
  induction ns with
  | nil => intro s; rfl
  | cons n rest ih =>
    intro s
    rw [List.foldl_cons, ih]

theorem floating_float_byte (cfg : Config) {s s' : SimState} {ns : List Nat}
    (h : float_byte cfg s ns = some s') : s'.floating = s.floating := by
  unfold float_byte at h
  have e := floating_recalc cfg _ _ s' h
  exact e.trans (float_pulls_floating ns s)

theorem floating_clk_pulse (cfg : Config) {s s' : SimState}
    (h : clk_pulse cfg s = some s') : s'.floating = s.floating := by
  unfold clk_pulse at h
  rcases h1 : set_high cfg s NODE_CLK0 with _ | s1
  · rw [h1] at h
    cases h
  · rw [h1] at h
    exact (floating_set_low cfg h).trans (floating_set_high cfg h1)

theorem floating_repeat_op {f : SimState → Option SimState}
    (hf : ∀ s s', f s = some s' → s'.floating = s.floating) :
    ∀ (k : Nat) (s s' : SimState), repeat_op f k s = some s' → s'.floating = s.floating := by
  intro k
  induction k with
  | zero =>
    intro s s' h
    cases h
    rfl
  | succ k ih =>
    intro s s' h
    unfold repeat_op at h
    rcases h1 : f s with _ | s1
    · rw [h1] at h
      cases h
    · rw [h1] at h
      exact (ih s1 s' h).trans (hf s s1 h1)

/-- C9 (refuted; code evaluated): none of the pull-changing operations
ever rewrites the floating flags - set_high, set_low, write_byte and
float_byte all return them untouched - and a hard init leaves every
non-rail flag at the power-on value true, so the flag does not track the
node's drive condition. -/
theorem c9_floating_never_maintained (cfg : Config) :
    (∀ s s' n, set_high cfg s n = some s' → s'.floating = s.floating) ∧
    (∀ s s' n, set_low cfg s n = some s' → s'.floating = s.floating) ∧
    (∀ s s' ns v, write_byte cfg s ns v = some s' → s'.floating = s.floating) ∧
    (∀ s s' ns, float_byte cfg s ns = some s' → s'.floating = s.floating) ∧
    (∀ s s', init_sim cfg s false = some s' →
      ∀ n, s'.floating n = if n = NODE_PWR then false else if n = NODE_GND then false else true) := by
  refine ⟨fun s s' n h => floating_set_high cfg h,
    fun s s' n h => floating_set_low cfg h,
    fun s s' ns v h => floating_write_byte cfg h,
    fun s s' ns h => floating_float_byte cfg h, ?_⟩
  intro s s' h n
  unfold init_sim at h
  simp only [Bool.false_eq_true, if_false, Option.bind_eq_bind', Option.bind_eq_some',
    Option.some.injEq] at h
  obtain ⟨s1, h1, hu⟩ := h
  obtain ⟨s2, h2, hu⟩ := hu
  obtain ⟨s3, h3, hu⟩ := hu
  obtain ⟨s4, h4, hu⟩ := hu
  obtain ⟨s5, h5, hu⟩ := hu
  obtain ⟨s6, h6, hu⟩ := hu
  obtain ⟨s7, h7, hu⟩ := hu
  obtain ⟨s8, h8, hu⟩ := hu
  obtain ⟨s9, h9, hu⟩ := hu
  obtain ⟨s10, h10, hu⟩ := hu
  obtain ⟨s11, h11, hlast⟩ := hu
  have e1 := floating_set_low cfg h1
  have e2 := floating_set_low cfg h2
  have e3 := floating_set_high cfg h3
  have e4 := floating_set_high cfg h4
  have e5 := floating_repeat_op (fun s s' h => floating_clk_pulse cfg h) 6 _ _ h5
  have e6 := floating_set_low cfg h6
  have e7 := floating_set_high cfg h7
  have e8 := floating_set_high cfg h8
  have e9 := floating_recalc cfg _ _ _ h9
  have e10 := floating_repeat_op (fun s s' h => floating_clk_pulse cfg h) 96 _ _ h10
  have e11 := floating_set_high cfg h11
  subst hlast
  show s11.floating n = _
  rw [e11, e10, e9, e8, e7, e6, e5, e4, e3, e2]
  have e0 : s1.floating = updf (updf (fun _ => true) NODE_GND false) NODE_PWR false := e1
  rw [e0]
  simp only [updf]

theorem c9_witness :
    ((set_low cfg0 (new_state cfg0) 5).getD (new_state cfg0)).floating =
      (new_state cfg0).floating := by
  rcases h : set_low cfg0 (new_state cfg0) 5 with _ | s'
  · have hs : (set_low cfg0 (new_state cfg0) 5).isSome = true := by decide
    rw [h] at hs
    simp at hs
  · simpa [h] using (c9_floating_never_maintained cfg0).2.1 (new_state cfg0) s' 5 h


theorem seg_area_loop_sum (seg : List Nat) :
    ∀ (fuel j : Nat), (seg.length - j - 3) / 2 ≤ fuel →
      seg_area_loop seg fuel j =
        ((List.range ((seg.length - j - 3) / 2)).map (fun k => loop_term seg (j + 2 * k))).sum := by
  intro fuel
  induction fuel with
  | zero =>
    intro j h
    have h0 : (seg.length - j - 3) / 2 = 0 := by omega
    rw [h0]
    simp [seg_area_loop]
  | succ fuel ih =>
    intro j h
    by_cases hc : j + 4 ≥ seg.length
    · have h0 : (seg.length - j - 3) / 2 = 0 := by omega
      rw [h0]
      simp [seg_area_loop, hc]
    · have hpos : (seg.length - j - 3) / 2 = (seg.length - (j + 2) - 3) / 2 + 1 := by omega
      rw [hpos]
      show (if j + 4 ≥ seg.length then (0 : Int)
        else (segI seg j * segI seg (j + 3) - segI seg (j + 2) * segI seg (j - 1)) +
          seg_area_loop seg fuel (j + 2)) = _
      rw [if_neg hc]
      rw [ih (j + 2) (by omega)]
      rw [List.range_succ_eq_map, List.map_cons, List.sum_cons, List.map_map]
      congr 1
      apply congrArg
      apply List.map_congr_left
      intro k hk
      show loop_term seg (j + 2 + 2 * k) = loop_term seg (j + 2 * Nat.succ k)
      congr 1
      omega

/-- C5 (amended): for a segment record of 3 + 2m entries, the area
accumulator of setup_nodes equals the absolute value of a wrap term plus a
sum whose running terms pair seg[j] with the PREVIOUS sample seg[j-1] and
which stops one edge short of the shoelace formula; records for ground and
power contribute no area. -/
theorem c5_area_formula (segdefs : List (List Nat)) (seg : List Nat) (m : Nat)
    (hm : 2 ≤ m) (hlen : seg.length = 3 + 2 * m) :
    seg_area seg =
      (seg_x seg (m - 1) * seg_y seg 0 - seg_x seg 0 * seg_y seg (m - 1) +
        ((List.range (m - 2)).map
          (fun k => seg_x seg k * seg_y seg (k + 1) - seg_x seg (k + 1) * seg_py seg k)).sum).natAbs ∧
    setup_nodes_area segdefs NODE_GND = 0 ∧ setup_nodes_area segdefs NODE_PWR = 0 := by
  refine ⟨?_, rfl, rfl⟩
  have e1 : segI seg (seg.length - 2) * segI seg 4 - segI seg 3 * segI seg (seg.length - 1)
      = seg_x seg (m - 1) * seg_y seg 0 - seg_x seg 0 * seg_y seg (m - 1) := by
    unfold seg_x seg_y
    have i1 : seg.length - 2 = 3 + 2 * (m - 1) := by omega
    have i2 : seg.length - 1 = 4 + 2 * (m - 1) := by omega
    rw [i1, i2]
  have e2 : (seg.length - 3 - 3) / 2 = m - 2 := by omega
  have e3 : ∀ k, loop_term seg (3 + 2 * k) =
      seg_x seg k * seg_y seg (k + 1) - seg_x seg (k + 1) * seg_py seg k := by
    intro k
    unfold loop_term seg_x seg_y seg_py
    have i3 : 3 + 2 * k + 3 = 4 + 2 * (k + 1) := by omega
    have i4 : 3 + 2 * k + 2 = 3 + 2 * (k + 1) := by omega
    have i5 : 3 + 2 * k - 1 = 2 + 2 * k := by omega
    rw [i3, i4, i5]
  unfold seg_area
  rw [seg_area_loop_sum seg seg.length 3 (by omega), e2, e1]
  congr 2
  apply congrArg
  apply List.map_congr_left
  intro k hk
  exact e3 k

theorem apply_group_state_noop (cfg : Config) (v : Bool) :
    ∀ (g : List Nat) (s : SimState), (∀ m ∈ g, s.state m = v) →
      apply_group_state cfg v g s = s := by
  intro g
  induction g with
  | nil => intro s h; rfl
  | cons m rest ih =>
    intro s h
    show apply_group_state cfg v rest
      (if s.state m ≠ v then update_gates cfg v (cfg.gates m) { s with state := updf s.state m v }
       else s) = s
    rw [if_neg (by simp [h m (List.mem_cons_self m rest)])]
    exact ih s (fun x hx => h x (List.mem_cons_of_mem m hx))

theorem recalc_loop_succ (cfg : Config) (fuel : Nat) (s : SimState) :
    recalc_loop cfg (fuel + 1) s =
      match run_pass cfg (cur_list s) s with
      | none => none
      | some t => if next_list t = [] then some t else recalc_loop cfg fuel (swap_step t) := rfl

theorem value_area_loop_congr (cfg : Config) (s t : SimState)
    (hst : t.state = s.state) (hpu : t.pullup = s.pullup) (hpd : t.pulldown = s.pulldown) :
    ∀ (g : List Nat) (hi lo : Nat),
      value_area_loop cfg t g hi lo = value_area_loop cfg s g hi lo := by
  intro g
  induction g with
  | nil => intro hi lo; rfl
  | cons n rest ih =>
    intro hi lo
    simp only [value_area_loop, hst, hpu, hpd, ih]

theorem get_node_value_congr (cfg : Config) (s t : SimState) (acc : GroupAcc)
    (hst : t.state = s.state) (hpu : t.pullup = s.pullup) (hpd : t.pulldown = s.pulldown) :
    get_node_value cfg t acc = get_node_value cfg s acc := by
  show (if (rail_flags_after_adjust acc).1 then false
    else if (rail_flags_after_adjust acc).2 then true
    else value_area_loop cfg t acc.group 0 0) =
    (if (rail_flags_after_adjust acc).1 then false
    else if (rail_flags_after_adjust acc).2 then true
    else value_area_loop cfg s acc.group 0 0)
  rw [value_area_loop_congr cfg s t hst hpu hpd acc.group 0 0]

/-- C8 (amended): set_high on a node that is already pulled up, not
pulled down, already high and settled within its group returns the state
unchanged except for the current recalc worklist buffer, which it leaves
holding exactly that node; the pull flags, node states, transistor flags,
memories and framebuffer survive byte for byte. -/
theorem c8_idempotent_when_already_pulled (cfg : Config) (s : SimState) (n : Nat)
    (acc : GroupAcc)
    (hn1 : n ≠ NODE_GND) (hn2 : n ≠ NODE_PWR)
    (hup : s.pullup n = true) (hdn : s.pulldown n = false)
    (hstate : s.state n = true)
    (hidx : s.curIdx = false) (hnext : s.lists1 = [])
    (hgrp : get_node_group cfg s n = some acc)
    (hsettle : ∀ m ∈ acc.group, s.state m = get_node_value cfg s acc) :
    set_high cfg s n = some { s with lists0 := [n] } := by
  have hupf : updf s.pullup n true = s.pullup := by
    funext k
    unfold updf
    split_ifs with hk
    · subst hk
      exact hup.symm
    · rfl
  have hdnf : updf s.pulldown n false = s.pulldown := by
    funext k
    unfold updf
    split_ifs with hk
    · subst hk
      exact hdn.symm
    · rfl
  unfold set_high
  rw [hupf, hdnf]
  show recalc_node_list cfg s [n] = some { s with lists0 := [n] }
  have hpn : process_node cfg { s with lists0 := [n], curIdx := false } n =
      some { s with lists0 := [n], curIdx := false } := by
    unfold process_node
    rw [if_neg (fun hc => hc.elim hn1 hn2)]
    have hg2 : get_node_group cfg { s with lists0 := [n], curIdx := false } n = some acc := hgrp
    simp only [hg2]
    have hval : get_node_value cfg { s with lists0 := [n], curIdx := false } acc =
        get_node_value cfg s acc :=
      get_node_value_congr cfg s _ acc rfl rfl rfl
    rw [hval]
    rw [apply_group_state_noop cfg (get_node_value cfg s acc) acc.group
      { s with lists0 := [n], curIdx := false } (fun m hm => hsettle m hm)]
  have hrp : run_pass cfg [n] { s with lists0 := [n], curIdx := false } =
      some { s with lists0 := [n], curIdx := false } := by
    unfold run_pass
    rw [hpn]
    rfl
  unfold recalc_node_list
  rw [show (99 : Nat) = 98 + 1 from rfl, recalc_loop_succ]
  rw [show swap_list_init s [n] = { s with lists0 := [n], curIdx := false } from rfl]
  rw [show cur_list ({ s with lists0 := [n], curIdx := false } : SimState) = [n] from rfl]
  rw [hrp]
  show (if next_list ({ s with lists0 := [n], curIdx := false } : SimState) = [] then
      some ({ s with lists0 := [n], curIdx := false } : SimState)
    else recalc_loop cfg 98 (swap_step { s with lists0 := [n], curIdx := false })) =
    some { s with lists0 := [n] }
  have hcond : next_list ({ s with lists0 := [n], curIdx := false } : SimState) = [] := hnext
  rw [if_pos hcond]
  exact congrArg some (by rw [← hidx])

theorem c8_witness :
    set_high cfg_area st8w 3 = some { st8w with lists0 := [3] } :=
  c8_idempotent_when_already_pulled cfg_area st8w 3 ⟨[3], false, false⟩
    (by decide) (by decide) (by decide) (by decide) (by decide) rfl rfl (by decide)
    (by decide)

theorem add_recalc_state (s : SimState) (n : Nat) :
    (add_recalc_node s n).state = s.state := by
  unfold add_recalc_node push_next
  split_ifs <;> rfl

theorem add_recalc_tOn (s : SimState) (n : Nat) :
    (add_recalc_node s n).tOn = s.tOn := by
  unfold add_recalc_node push_next
  split_ifs <;> rfl

theorem turn_on_state (cfg : Config) (s : SimState) (i : Nat) :
    (turn_transistor_on cfg s i).state = s.state := by
  unfold turn_transistor_on
  split_ifs
  · rfl
  · rw [add_recalc_state]

theorem turn_off_state (cfg : Config) (s : SimState) (i : Nat) :
    (turn_transistor_off cfg s i).state = s.state := by
  unfold turn_transistor_off
  split_ifs
  · rw [add_recalc_state, add_recalc_state]
  · rfl

theorem turn_on_tOn_self (cfg : Config) (s : SimState) (i : Nat) :
    (turn_transistor_on cfg s i).tOn i = true := by
  unfold turn_transistor_on
  split_ifs with h
  · exact h
  · rw [add_recalc_tOn]
    show updf s.tOn i true i = true
    unfold updf
    rw [if_pos rfl]

theorem turn_off_tOn_self (cfg : Config) (s : SimState) (i : Nat) :
    (turn_transistor_off cfg s i).tOn i = false := by
  unfold turn_transistor_off
  split_ifs with h
  · rw [add_recalc_tOn, add_recalc_tOn]
    show updf s.tOn i false i = false
    unfold updf
    rw [if_pos rfl]
  · simpa using h

theorem turn_on_tOn_other (cfg : Config) (s : SimState) (i j : Nat) (hij : j ≠ i) :
    (turn_transistor_on cfg s i).tOn j = s.tOn j := by
  unfold turn_transistor_on
  split_ifs
  · rfl
  · rw [add_recalc_tOn]
    show updf s.tOn i true j = s.tOn j
    unfold updf
    rw [if_neg hij]

theorem turn_off_tOn_other (cfg : Config) (s : SimState) (i j : Nat) (hij : j ≠ i) :
    (turn_transistor_off cfg s i).tOn j = s.tOn j := by
  unfold turn_transistor_off
  split_ifs
  · rw [add_recalc_tOn, add_recalc_tOn]
    show updf s.tOn i false j = s.tOn j
    unfold updf
    rw [if_neg hij]
  · rfl

theorem update_gates_state (cfg : Config) (v : Bool) :
    ∀ (ts : List Nat) (s : SimState), (update_gates cfg v ts s).state = s.state := by
  intro ts
  induction ts with
  | nil => intro s; rfl
  | cons i rest ih =>
    intro s
    show (update_gates cfg v rest
      (if v then turn_transistor_on cfg s i else turn_transistor_off cfg s i)).state = s.state
    rw [ih]
    by_cases hv : v
    · rw [if_pos hv, turn_on_state]
    · rw [if_neg hv, turn_off_state]

theorem update_gates_tOn_not_mem (cfg : Config) (v : Bool) :
    ∀ (ts : List Nat) (s : SimState) (i : Nat), i ∉ ts →
      (update_gates cfg v ts s).tOn i = s.tOn i := by
  intro ts
  induction ts with
  | nil => intro s i _; rfl
  | cons a rest ih =>
    intro s i hi
    have hia : i ≠ a := fun hc => hi (hc ▸ List.mem_cons_self a rest)
    have hirest : i ∉ rest := fun hc => hi (List.mem_cons_of_mem a hc)
    show (update_gates cfg v rest
      (if v then turn_transistor_on cfg s a else turn_transistor_off cfg s a)).tOn i = s.tOn i
    rw [ih _ i hirest]
    by_cases hv : v
    · rw [if_pos hv, turn_on_tOn_other cfg s a i hia]
    · rw [if_neg hv, turn_off_tOn_other cfg s a i hia]

theorem update_gates_tOn_mem (cfg : Config) (v : Bool) :
    ∀ (ts : List Nat) (s : SimState) (i : Nat), i ∈ ts →
      (update_gates cfg v ts s).tOn i = v := by
  intro ts
  induction ts with
  | nil => intro s i hi; cases hi
  | cons a rest ih =>
    intro s i hi
    show (update_gates cfg v rest
      (if v then turn_transistor_on cfg s a else turn_transistor_off cfg s a)).tOn i = v
    by_cases hirest : i ∈ rest
    · rw [ih _ i hirest]
    · have hia : i = a := by
        rcases List.mem_cons.1 hi with h | h
        · exact h
        · exact absurd h hirest
      subst hia
      rw [update_gates_tOn_not_mem cfg v rest _ i hirest]
      by_cases hv : v
      · rw [if_pos hv]
        rw [turn_on_tOn_self cfg s i, hv]
      · rw [if_neg hv]
        rw [turn_off_tOn_self cfg s i]
        simp [hv]

theorem gate_inv_apply_one (cfg : Config) (wf : WFConfig cfg) (s : SimState) (m : Nat)
    (v : Bool) (hinv : gate_inv cfg s) :
    gate_inv cfg (update_gates cfg v (cfg.gates m) { s with state := updf s.state m v }) := by
  intro t ht
  rw [update_gates_state]
  by_cases hg : cfg.gateOf t = m
  · have hmem : t ∈ cfg.gates m := hg ▸ wf.gates_complete t ht
    rw [update_gates_tOn_mem cfg v (cfg.gates m) _ t hmem]
    show v = updf s.state m v (cfg.gateOf t)
    rw [hg]
    unfold updf
    rw [if_pos rfl]
  · have hnm : t ∉ cfg.gates m := fun hc => hg (wf.gates_sound m t hc)
    rw [update_gates_tOn_not_mem cfg v (cfg.gates m) _ t hnm]
    show s.tOn t = updf s.state m v (cfg.gateOf t)
    unfold updf
    rw [if_neg hg]
    exact hinv t ht

theorem gate_inv_apply_group (cfg : Config) (wf : WFConfig cfg) (v : Bool) :
    ∀ (g : List Nat) (s : SimState), gate_inv cfg s →
      gate_inv cfg (apply_group_state cfg v g s) := by
  intro g
  induction g with
  | nil => intro s h; exact h
  | cons m rest ih =>
    intro s h
    show gate_inv cfg (apply_group_state cfg v rest
      (if s.state m ≠ v then update_gates cfg v (cfg.gates m) { s with state := updf s.state m v }
       else s))
    split_ifs
    · exact ih _ (gate_inv_apply_one cfg wf s m v h)
    · exact ih _ h

theorem gate_inv_process_node (cfg : Config) (wf : WFConfig cfg) (s : SimState) (n : Nat)
    (s' : SimState) (h : process_node cfg s n = some s') (hinv : gate_inv cfg s) :
    gate_inv cfg s' := by
  unfold process_node at h
  split_ifs at h
  · cases h
    exact hinv
  · rcases hg : get_node_group cfg s n with _ | acc
    · rw [hg] at h
      cases h
    · rw [hg] at h
      cases h
      exact gate_inv_apply_group cfg wf _ acc.group s hinv

theorem gate_inv_run_pass (cfg : Config) (wf : WFConfig cfg) :
    ∀ (l : List Nat) (s s' : SimState), run_pass cfg l s = some s' → gate_inv cfg s →
      gate_inv cfg s' := by
  intro l
  induction l with
  | nil =>
    intro s s' h hinv
    cases h
    exact hinv
  | cons n rest ih =>
    intro s s' h hinv
    unfold run_pass at h
    rcases hp : process_node cfg s n with _ | s1
    · rw [hp] at h
      cases h
    · rw [hp] at h
      exact ih s1 s' h (gate_inv_process_node cfg wf s n s1 hp hinv)

theorem gate_inv_swap_step (cfg : Config) (s : SimState) (h : gate_inv cfg s) :
    gate_inv cfg (swap_step s) := by
  intro t ht
  have hst : (swap_step s).state = s.state := by
    unfold swap_step swap_buffers
    split_ifs <;> rfl
  have htn : (swap_step s).tOn = s.tOn := by
    unfold swap_step swap_buffers
    split_ifs <;> rfl
  rw [hst, htn]
  exact h t ht

theorem gate_inv_recalc_loop (cfg : Config) (wf : WFConfig cfg) :
    ∀ (fuel : Nat) (s s' : SimState), recalc_loop cfg fuel s = some s' → gate_inv cfg s →
      gate_inv cfg s' := by
  intro fuel
  induction fuel with
  | zero => intro s s' h _; simp [recalc_loop] at h
  | succ fuel ih =>
    intro s s' h hinv
    rcases hrp : run_pass cfg (cur_list s) s with _ | t
    · simp [recalc_loop, hrp] at h
    · simp only [recalc_loop, hrp] at h
      by_cases hne : next_list t = []
      · rw [if_pos hne] at h
        cases h
        exact gate_inv_run_pass cfg wf (cur_list s) s s' hrp hinv
      · rw [if_neg hne] at h
        exact ih _ _ h (gate_inv_swap_step cfg _ (gate_inv_run_pass cfg wf _ s t hrp hinv))

theorem gate_inv_recalc (cfg : Config) (wf : WFConfig cfg) (s : SimState) (seeds : List Nat)
    (s' : SimState) (h : recalc_node_list cfg s seeds = some s') (hinv : gate_inv cfg s) :
    gate_inv cfg s' := by
  unfold recalc_node_list at h
  refine gate_inv_recalc_loop cfg wf 99 _ s' h ?_
  intro t ht
  exact hinv t ht

theorem gate_inv_set_high (cfg : Config) (wf : WFConfig cfg) {s s' : SimState} {n : Nat}
    (h : set_high cfg s n = some s') (hinv : gate_inv cfg s) : gate_inv cfg s' := by
  unfold set_high at h
  refine gate_inv_recalc cfg wf _ _ s' h ?_
  intro t ht
  exact hinv t ht

theorem gate_inv_set_low (cfg : Config) (wf : WFConfig cfg) {s s' : SimState} {n : Nat}
    (h : set_low cfg s n = some s') (hinv : gate_inv cfg s) : gate_inv cfg s' := by
  unfold set_low at h
  refine gate_inv_recalc cfg wf _ _ s' h ?_
  intro t ht
  exact hinv t ht

theorem write_byte_pulls_dyn :
    ∀ (ns : List Nat) (v : Nat) (s : SimState),
      (write_byte_pulls s ns v).state = s.state ∧ (write_byte_pulls s ns v).tOn = s.tOn := by
  intro ns
  induction ns with
  | nil => intro v s; exact ⟨rfl, rfl⟩
  | cons n rest ih =>
    intro v s
    show (write_byte_pulls (if v % 2 = 0 then _ else _) rest (v / 2)).state = s.state ∧
      (write_byte_pulls (if v % 2 = 0 then _ else _) rest (v / 2)).tOn = s.tOn
    obtain ⟨h1, h2⟩ := ih (v / 2) (if v % 2 = 0 then
      { s with pulldown := updf s.pulldown n true, pullup := updf s.pullup n false }
      else { s with pulldown := updf s.pulldown n false, pullup := updf s.pullup n true })
    rw [h1, h2]
    split_ifs <;> exact ⟨rfl, rfl⟩

theorem gate_inv_write_byte (cfg : Config) (wf : WFConfig cfg) {s s' : SimState}
    {ns : List Nat} {v : Nat} (h : write_byte cfg s ns v = some s') (hinv : gate_inv cfg s) :
    gate_inv cfg s' := by
  unfold write_byte at h
  refine gate_inv_recalc cfg wf _ _ s' h ?_
  intro t ht
  obtain ⟨h1, h2⟩ := write_byte_pulls_dyn ns v s
  rw [h1, h2]
  exact hinv t ht

theorem float_pulls_dyn :
    ∀ (ns : List Nat) (s : SimState),
      ((ns.foldl (fun s n =>
        { s with pulldown := updf s.pulldown n false, pullup := updf s.pullup n false }) s)).state
          = s.state ∧
      ((ns.foldl (fun s n =>
        { s with pulldown := updf s.pulldown n false, pullup := updf s.pullup n false }) s)).tOn
          = s.tOn := by
  intro ns
  induction ns with
  | nil => intro s; exact ⟨rfl, rfl⟩
  | cons n rest ih =>
    intro s
    rw [List.foldl_cons]
    obtain ⟨h1, h2⟩ :=
      ih { s with pulldown := updf s.pulldown n false, pullup := updf s.pullup n false }
    rw [h1, h2]
    exact ⟨rfl, rfl⟩

theorem gate_inv_float_byte (cfg : Config) (wf : WFConfig cfg) {s s' : SimState}
    {ns : List Nat} (h : float_byte cfg s ns = some s') (hinv : gate_inv cfg s) :
    gate_inv cfg s' := by
  unfold float_byte at h
  refine gate_inv_recalc cfg wf _ _ s' h ?_
  intro t ht
  obtain ⟨h1, h2⟩ := float_pulls_dyn ns s
  rw [h1, h2]
  exact hinv t ht

theorem force_gates_state (v : Bool) :
    ∀ (ts : List Nat) (s : SimState), (force_gates v ts s).state = s.state := by
  intro ts
  induction ts with
  | nil => intro s; rfl
  | cons a rest ih =>
    intro s
    show (force_gates v rest { s with tOn := updf s.tOn a v }).state = s.state
    rw [ih]

theorem force_gates_tOn_not_mem (v : Bool) :
    ∀ (ts : List Nat) (s : SimState) (i : Nat), i ∉ ts →
      (force_gates v ts s).tOn i = s.tOn i := by
  intro ts
  induction ts with
  | nil => intro s i _; rfl
  | cons a rest ih =>
    intro s i hi
    have hia : i ≠ a := fun hc => hi (hc ▸ List.mem_cons_self a rest)
    have hirest : i ∉ rest := fun hc => hi (List.mem_cons_of_mem a hc)
    show (force_gates v rest { s with tOn := updf s.tOn a v }).tOn i = s.tOn i
    rw [ih _ i hirest]
    show updf s.tOn a v i = s.tOn i
    unfold updf
    rw [if_neg hia]

theorem force_gates_tOn_mem (v : Bool) :
    ∀ (ts : List Nat) (s : SimState) (i : Nat), i ∈ ts →
      (force_gates v ts s).tOn i = v := by
  intro ts
  induction ts with
  | nil => intro s i hi; cases hi
  | cons a rest ih =>
    intro s i hi
    show (force_gates v rest { s with tOn := updf s.tOn a v }).tOn i = v
    by_cases hirest : i ∈ rest
    · rw [ih _ i hirest]
    · have hia : i = a := by
        rcases List.mem_cons.1 hi with h | h
        · exact h
        · exact absurd h hirest
      subst hia
      rw [force_gates_tOn_not_mem v rest _ i hirest]
      show updf s.tOn i v i = v
      unfold updf
      rw [if_pos rfl]

theorem gate_inv_set_bit (cfg : Config) (wf : WFConfig cfg) {s s' : SimState} {n1 n2 : Int}
    (h : set_bit cfg s n1 n2 = some s') (hinv : gate_inv cfg s) : gate_inv cfg s' := by
  unfold set_bit at h
  split_ifs at h
  · cases h
    exact hinv
  · refine gate_inv_recalc cfg wf _ _ s' h ?_
    intro t ht
    show (force_gates false (cfg.gates n2.toNat)
        (force_gates true (cfg.gates n1.toNat) s)).tOn t =
      updf (updf (force_gates false (cfg.gates n2.toNat)
        (force_gates true (cfg.gates n1.toNat) s)).state n1.toNat true) n2.toNat false
        (cfg.gateOf t)
    rw [force_gates_state, force_gates_state]
    by_cases hg2 : cfg.gateOf t = n2.toNat
    · have hmem2 : t ∈ cfg.gates n2.toNat := hg2 ▸ wf.gates_complete t ht
      rw [force_gates_tOn_mem false _ _ t hmem2]
      show false = updf (updf s.state n1.toNat true) n2.toNat false (cfg.gateOf t)
      rw [hg2]
      unfold updf
      rw [if_pos rfl]
    · have hnm2 : t ∉ cfg.gates n2.toNat := fun hc => hg2 (wf.gates_sound _ t hc)
      rw [force_gates_tOn_not_mem false _ _ t hnm2]
      by_cases hg1 : cfg.gateOf t = n1.toNat
      · have hmem1 : t ∈ cfg.gates n1.toNat := hg1 ▸ wf.gates_complete t ht
        rw [force_gates_tOn_mem true _ _ t hmem1]
        show true = updf (updf s.state n1.toNat true) n2.toNat false (cfg.gateOf t)
        unfold updf
        rw [if_neg hg2, hg1, if_pos rfl]
      · have hnm1 : t ∉ cfg.gates n1.toNat := fun hc => hg1 (wf.gates_sound _ t hc)
        rw [force_gates_tOn_not_mem true _ _ t hnm1]
        show s.tOn t = updf (updf s.state n1.toNat true) n2.toNat false (cfg.gateOf t)
        unfold updf
        rw [if_neg hg2, if_neg hg1]
        exact hinv t ht

theorem gate_inv_foldlM {α : Type} (cfg : Config) (f : SimState → α → Option SimState)
    (hf : ∀ s x s', f s x = some s' → gate_inv cfg s → gate_inv cfg s') :
    ∀ (l : List α) (s s' : SimState), List.foldlM f s l = some s' → gate_inv cfg s →
      gate_inv cfg s' := by
  intro l
  induction l with
  | nil =>
    intro s s' h hinv
    cases h
    exact hinv
  | cons x rest ih =>
    intro s s' h hinv
    rw [List.foldlM_cons] at h
    rcases hx : f s x with _ | s1
    · rw [hx] at h
      cases h
    · rw [hx] at h
      exact ih s1 s' h (hf s x s1 hx hinv)

theorem gate_inv_palette_write (cfg : Config) (wf : WFConfig cfg) {s s' : SimState}
    {a v : Nat} (h : palette_write cfg s a v = some s') (hinv : gate_inv cfg s) :
    gate_inv cfg s' := by
  unfold palette_write at h
  refine gate_inv_foldlM cfg _ ?_ (List.range 6) s s' h hinv
  intro s x s' hx hi
  split_ifs at hx
  · exact gate_inv_set_bit cfg wf hx hi
  · exact gate_inv_set_bit cfg wf hx hi

theorem gate_inv_sprite_write (cfg : Config) (wf : WFConfig cfg) {s s' : SimState}
    {a v : Nat} (h : sprite_write cfg s a v = some s') (hinv : gate_inv cfg s) :
    gate_inv cfg s' := by
  unfold sprite_write at h
  refine gate_inv_foldlM cfg _ ?_ (List.range 8) s s' h hinv
  intro s x s' hx hi
  split_ifs at hx
  · exact gate_inv_set_bit cfg wf hx hi
  · exact gate_inv_set_bit cfg wf hx hi

set_option maxRecDepth 8192 in
theorem gate_inv_ppu_write (cfg : Config) {s s' : SimState} {a d : Nat}
    (h : ppu_write s a d = some s') (hinv : gate_inv cfg s) : gate_inv cfg s' := by
  simp only [ppu_write] at h
  repeat' split at h
  all_goals cases h
  all_goals intro t ht
  all_goals exact hinv t ht

theorem rpab_dyn (s : SimState) :
    ((read_ppu_address_bus s).1).state = s.state ∧
    ((read_ppu_address_bus s).1).tOn = s.tOn := by
  unfold read_ppu_address_bus
  split_ifs <;> exact ⟨rfl, rfl⟩

theorem ale_latch_dyn (s : SimState) :
    (chr_ale_latch s).state = s.state ∧ (chr_ale_latch s).tOn = s.tOn := by
  unfold chr_ale_latch
  split_ifs
  · obtain ⟨h1, h2⟩ := rpab_dyn s
    exact ⟨h1, h2⟩
  · exact ⟨rfl, rfl⟩

theorem gate_inv_ale_latch (cfg : Config) {s : SimState} (hinv : gate_inv cfg s) :
    gate_inv cfg (chr_ale_latch s) := by
  intro t ht
  obtain ⟨h1, h2⟩ := ale_latch_dyn s
  rw [h1, h2]
  exact hinv t ht

theorem gate_inv_chr_read_fall (cfg : Config) (wf : WFConfig cfg) {s s' : SimState}
    {pRd rd : Bool} (h : chr_read_fall cfg s pRd rd = some s') (hinv : gate_inv cfg s) :
    gate_inv cfg s' := by
  unfold chr_read_fall at h
  split_ifs at h
  · rcases hr : ppu_read s s.chrAddress with _ | d
    · rw [hr] at h
      cases h
    · rw [hr] at h
      exact gate_inv_write_byte cfg wf h hinv
  · cases h
    exact hinv

theorem gate_inv_chr_read_rise (cfg : Config) (wf : WFConfig cfg) {s s' : SimState}
    {pRd rd : Bool} (h : chr_read_rise cfg s pRd rd = some s') (hinv : gate_inv cfg s) :
    gate_inv cfg s' := by
  unfold chr_read_rise at h
  split_ifs at h
  · exact gate_inv_float_byte cfg wf h hinv
  · cases h
    exact hinv

theorem rpdb_dyn (s : SimState) :
    ((read_ppu_data_bus s).1).state = s.state ∧
    ((read_ppu_data_bus s).1).tOn = s.tOn := by
  unfold read_ppu_data_bus
  split_ifs <;> exact ⟨rfl, rfl⟩

theorem gate_inv_read_ppu_data_bus (cfg : Config) {s : SimState} (hinv : gate_inv cfg s) :
    gate_inv cfg (read_ppu_data_bus s).1 := by
  intro t ht
  obtain ⟨h1, h2⟩ := rpdb_dyn s
  rw [h1, h2]
  exact hinv t ht

theorem gate_inv_chr_write_rise (cfg : Config) {s s' : SimState}
    {pWr wr : Bool} (h : chr_write_rise cfg s pWr wr = some s') (hinv : gate_inv cfg s) :
    gate_inv cfg s' := by
  unfold chr_write_rise at h
  split_ifs at h
  · exact gate_inv_ppu_write cfg h (gate_inv_read_ppu_data_bus cfg hinv)
  · cases h
    exact hinv

theorem gate_inv_handle_chr_bus (cfg : Config) (wf : WFConfig cfg) {s s' : SimState}
    (h : handle_chr_bus cfg s = some s') (hinv : gate_inv cfg s) : gate_inv cfg s' := by
  unfold handle_chr_bus at h
  simp only [Option.bind_eq_bind', Option.bind_eq_some', Option.some.injEq] at h
  obtain ⟨s1, h1, s2, h2, s3, h3, hlast⟩ := h
  have i1 := gate_inv_chr_read_fall cfg wf h1 (gate_inv_ale_latch cfg hinv)
  have i2 := gate_inv_chr_read_rise cfg wf h2 i1
  have i3 := gate_inv_chr_write_rise cfg h3 i2
  have i4 := gate_inv_read_ppu_data_bus cfg i3
  subst hlast
  intro t ht
  exact i4 t ht

theorem gate_inv_handle_cpu_bus_read (cfg : Config) (wf : WFConfig cfg) {s s' : SimState}
    (h : handle_cpu_bus_read cfg s = some s') (hinv : gate_inv cfg s) : gate_inv cfg s' := by
  simp only [handle_cpu_bus_read] at h
  split at h
  · split at h
    · exact gate_inv_float_byte cfg wf h hinv
    · exact gate_inv_write_byte cfg wf h hinv
  · cases h
    exact hinv

theorem gate_inv_cpu_write (cfg : Config) {s : SimState} {a d : Nat}
    (hinv : gate_inv cfg s) : gate_inv cfg (cpu_write s a d) := by
  intro t ht
  unfold cpu_write
  split_ifs
  · exact hinv t ht
  · exact hinv t ht
  · exact hinv t ht

theorem gate_inv_handle_cpu_bus_write (cfg : Config) {s s' : SimState}
    (h : handle_cpu_bus_write cfg s = some s') (hinv : gate_inv cfg s) : gate_inv cfg s' := by
  simp only [handle_cpu_bus_write] at h
  generalize read_cpu_address_bus s = a at h
  generalize read_cpu_data_bus s = d at h
  split at h
  · cases h
    exact gate_inv_cpu_write cfg hinv
  · cases h
    exact hinv

theorem video_sample_dyn (s : SimState) :
    (video_sample s).state = s.state ∧ (video_sample s).tOn = s.tOn := by
  simp only [video_sample]
  generalize read_bit s NODE_PCLK1 = b
  generalize (read_hpos s : Int) = hp
  generalize read_vpos s = vp
  split_ifs <;> exact ⟨rfl, rfl⟩

theorem gate_inv_video_sample (cfg : Config) {s : SimState} (hinv : gate_inv cfg s) :
    gate_inv cfg (video_sample s) := by
  intro t ht
  obtain ⟨h1, h2⟩ := video_sample_dyn s
  rw [h1, h2]
  exact hinv t ht

theorem bind_some_dissect {α β : Type} {o : Option α} {f : α → Option β} {b : β}
    (h : o >>= f = some b) : ∃ a, o = some a ∧ f a = some b := by
  cases o with
  | none => exact absurd h (by simp)
  | some a => exact ⟨a, rfl, h⟩

theorem half_step_rest (cfg : Config) (wf : WFConfig cfg) (c : Bool) {s2 s' : SimState}
    (h : (handle_chr_bus cfg s2 >>= fun u =>
      if c ≠ is_node_high u NODE_CPU_CLK0 then
        if c = true then handle_cpu_bus_read cfg u >>= fun y => some (video_sample y)
        else handle_cpu_bus_write cfg u >>= fun y => some (video_sample y)
      else some u >>= fun y => some (video_sample y)) = some s')
    (hinv : gate_inv cfg s2) : gate_inv cfg s' := by
  obtain ⟨s3, h3, h⟩ := bind_some_dissect h
  beta_reduce at h
  have i3 : gate_inv cfg s3 := gate_inv_handle_chr_bus cfg wf h3 hinv
  split at h
  · split at h
    · obtain ⟨s4, h4, h⟩ := bind_some_dissect h
      beta_reduce at h
      rw [Option.some_inj] at h
      subst h
      exact gate_inv_video_sample cfg (gate_inv_handle_cpu_bus_read cfg wf h4 i3)
    · obtain ⟨s4, h4, h⟩ := bind_some_dissect h
      beta_reduce at h
      rw [Option.some_inj] at h
      subst h
      exact gate_inv_video_sample cfg (gate_inv_handle_cpu_bus_write cfg h4 i3)
  · obtain ⟨s4, h4, h⟩ := bind_some_dissect h
    beta_reduce at h
    rw [Option.some_inj] at h4
    rw [Option.some_inj] at h
    subst h
    rw [← h4]
    exact gate_inv_video_sample cfg i3

theorem gate_inv_half_step (cfg : Config) (wf : WFConfig cfg) {s s' : SimState}
    (h : half_step cfg s = some s') (hinv : gate_inv cfg s) : gate_inv cfg s' := by
  simp only [half_step] at h
  split at h
  all_goals
    obtain ⟨s1, h1, h⟩ := bind_some_dissect h
    beta_reduce at h
    have i1 : gate_inv cfg s1 := by
      first
      | exact gate_inv_set_low cfg wf h1 hinv
      | exact gate_inv_set_high cfg wf h1 hinv
    clear h1 hinv
    split at h
  all_goals try split at h
  · obtain ⟨s2, h2, h⟩ := bind_some_dissect h
    exact half_step_rest cfg wf _ h (gate_inv_set_high cfg wf h2 (fun t ht => i1 t ht))
  · obtain ⟨s2, h2, h⟩ := bind_some_dissect h
    rw [Option.some_inj] at h2
    refine half_step_rest cfg wf _ h ?_
    rw [← h2]
    intro t ht
    exact i1 t ht
  · obtain ⟨s2, h2, h⟩ := bind_some_dissect h
    rw [Option.map_eq_some'] at h2
    obtain ⟨u, hu, hfu⟩ := h2
    refine half_step_rest cfg wf _ h ?_
    rw [← hfu]
    intro t ht
    exact (gate_inv_set_low cfg wf hu i1) t ht
  · obtain ⟨s2, h2, h⟩ := bind_some_dissect h
    rw [Option.some_inj] at h2
    refine half_step_rest cfg wf _ h ?_
    rw [← h2]
    intro t ht
    exact i1 t ht
  · obtain ⟨s2, h2, h⟩ := bind_some_dissect h
    exact half_step_rest cfg wf _ h (gate_inv_set_high cfg wf h2 (fun t ht => i1 t ht))
  · obtain ⟨s2, h2, h⟩ := bind_some_dissect h
    rw [Option.some_inj] at h2
    refine half_step_rest cfg wf _ h ?_
    rw [← h2]
    intro t ht
    exact i1 t ht
  · obtain ⟨s2, h2, h⟩ := bind_some_dissect h
    rw [Option.map_eq_some'] at h2
    obtain ⟨u, hu, hfu⟩ := h2
    refine half_step_rest cfg wf _ h ?_
    rw [← hfu]
    intro t ht
    exact (gate_inv_set_low cfg wf hu i1) t ht
  · obtain ⟨s2, h2, h⟩ := bind_some_dissect h
    rw [Option.some_inj] at h2
    refine half_step_rest cfg wf _ h ?_
    rw [← h2]
    intro t ht
    exact i1 t ht

theorem gate_inv_clk_toggle (cfg : Config) (wf : WFConfig cfg) {s s' : SimState}
    (h : clk_toggle cfg s = some s') (hinv : gate_inv cfg s) : gate_inv cfg s' := by
  unfold clk_toggle at h
  split at h
  · exact gate_inv_set_low cfg wf h hinv
  · exact gate_inv_set_high cfg wf h hinv

theorem gate_inv_clk_pulse (cfg : Config) (wf : WFConfig cfg) {s s' : SimState}
    (h : clk_pulse cfg s = some s') (hinv : gate_inv cfg s) : gate_inv cfg s' := by
  unfold clk_pulse at h
  rcases h1 : set_high cfg s NODE_CLK0 with _ | s1
  · rw [h1] at h
    cases h
  · rw [h1] at h
    exact gate_inv_set_low cfg wf h (gate_inv_set_high cfg wf h1 hinv)

theorem gate_inv_repeat_op (cfg : Config) {f : SimState → Option SimState}
    (hf : ∀ s s', f s = some s' → gate_inv cfg s → gate_inv cfg s') :
    ∀ (k : Nat) (s s' : SimState), repeat_op f k s = some s' → gate_inv cfg s →
      gate_inv cfg s' := by
  intro k
  induction k with
  | zero =>
    intro s s' h hinv
    cases h
    exact hinv
  | succ k ih =>
    intro s s' h hinv
    unfold repeat_op at h
    rcases h1 : f s with _ | s1
    · rw [h1] at h
      cases h
    · rw [h1] at h
      exact ih s1 s' h (hf s s1 h1 hinv)

theorem gate_inv_init_hard (cfg : Config) (wf : WFConfig cfg) {s s' : SimState}
    (h : init_sim cfg s false = some s') : gate_inv cfg s' := by
  unfold init_sim at h
  simp only [Bool.false_eq_true, if_false, Option.bind_eq_bind', Option.bind_eq_some',
    Option.some.injEq] at h
  obtain ⟨s1, h1, hu⟩ := h
  obtain ⟨s2, h2, hu⟩ := hu
  obtain ⟨s3, h3, hu⟩ := hu
  obtain ⟨s4, h4, hu⟩ := hu
  obtain ⟨s5, h5, hu⟩ := hu
  obtain ⟨s6, h6, hu⟩ := hu
  obtain ⟨s7, h7, hu⟩ := hu
  obtain ⟨s8, h8, hu⟩ := hu
  obtain ⟨s9, h9, hu⟩ := hu
  obtain ⟨s10, h10, hu⟩ := hu
  obtain ⟨s11, h11, hlast⟩ := hu
  have i1 : gate_inv cfg s1 := gate_inv_set_low cfg wf h1 (by
    intro t ht
    show cfg.transInitPower t =
      updf (updf (fun _ => false) NODE_GND false) NODE_PWR true (cfg.gateOf t)
    rw [wf.init_power]
    simp only [updf]
    by_cases hg : cfg.gateOf t = NODE_PWR
    · simp [hg]
    · simp [hg])
  have i2 : gate_inv cfg s2 := gate_inv_set_low cfg wf h2 i1
  have i3 : gate_inv cfg s3 := gate_inv_set_high cfg wf h3 i2
  have i4 : gate_inv cfg s4 := gate_inv_set_high cfg wf h4 i3
  have i5 : gate_inv cfg s5 :=
    gate_inv_repeat_op cfg (fun u u' hu => gate_inv_clk_pulse cfg wf hu) 6 _ _ h5 i4
  have i6 : gate_inv cfg s6 := gate_inv_set_low cfg wf h6 i5
  have i7 : gate_inv cfg s7 := gate_inv_set_high cfg wf h7 i6
  have i8 : gate_inv cfg s8 := gate_inv_set_high cfg wf h8 i7
  have i9 : gate_inv cfg s9 := gate_inv_recalc cfg wf _ _ _ h9 i8
  have i10 : gate_inv cfg s10 :=
    gate_inv_repeat_op cfg (fun u u' hu => gate_inv_clk_pulse cfg wf hu) 96 _ _ h10 i9
  have i11 : gate_inv cfg s11 := gate_inv_set_high cfg wf h11 i10
  subst hlast
  intro t ht
  exact i11 t ht

theorem gate_inv_init_soft (cfg : Config) (wf : WFConfig cfg) {s s' : SimState}
    (h : init_sim cfg s true = some s') (hinv : gate_inv cfg s) : gate_inv cfg s' := by
  unfold init_sim at h
  simp only [eq_self_iff_true, if_true, Option.bind_eq_bind', Option.bind_eq_some',
    Option.some.injEq] at h
  obtain ⟨s1, h1, hu⟩ := h
  obtain ⟨s2, h2, hu⟩ := hu
  obtain ⟨s3, h3, hlast⟩ := hu
  have i1 : gate_inv cfg s1 := gate_inv_set_low cfg wf h1 (by
    intro t ht
    exact hinv t ht)
  have i2 : gate_inv cfg s2 :=
    gate_inv_repeat_op cfg (fun u u' hu => gate_inv_clk_toggle cfg wf hu) 193 _ _ h2 i1
  have i3 : gate_inv cfg s3 := gate_inv_set_high cfg wf h3 i2
  subst hlast
  intro t ht
  exact i3 t ht

theorem gate_inv_load_rom (cfg : Config) (wf : WFConfig cfg) {s s' : SimState}
    {mir : Mirroring} {prg chr : Nat → Nat}
    (h : load_rom cfg s mir prg chr = some s') : gate_inv cfg s' := by
  unfold load_rom at h
  split_ifs at h
  rcases hi : init_sim cfg { s with mirroring := mir } false with _ | s1
  · rw [hi] at h
    cases h
  · rw [hi] at h
    rw [Option.some_inj] at h
    subst h
    intro t ht
    exact (gate_inv_init_hard cfg wf hi) t ht

theorem gate_inv_new_state (cfg : Config) : gate_inv cfg (new_state cfg) := by
  intro t ht
  rfl

/-- C2: after every public operation of the simulator (new, init in both
reset modes, load_rom, half_step, and the palette/sprite memory-poke
paths) returns, every transistor is on exactly when its gate node is
high. -/
theorem c2_gate_invariant (cfg : Config) (wf : WFConfig cfg) :
    gate_inv cfg (new_state cfg) ∧
    (∀ s s', init_sim cfg s false = some s' → gate_inv cfg s') ∧
    (∀ s s', gate_inv cfg s → init_sim cfg s true = some s' → gate_inv cfg s') ∧
    (∀ s s' mir prg chr, load_rom cfg s mir prg chr = some s' → gate_inv cfg s') ∧
    (∀ s s', gate_inv cfg s → half_step cfg s = some s' → gate_inv cfg s') ∧
    (∀ s s' a v, gate_inv cfg s → palette_write cfg s a v = some s' → gate_inv cfg s') ∧
    (∀ s s' a v, gate_inv cfg s → sprite_write cfg s a v = some s' → gate_inv cfg s') :=
  ⟨gate_inv_new_state cfg,
   fun _ _ h => gate_inv_init_hard cfg wf h,
   fun _ _ hinv h => gate_inv_init_soft cfg wf h hinv,
   fun _ _ _ _ _ h => gate_inv_load_rom cfg wf h,
   fun _ _ hinv h => gate_inv_half_step cfg wf h hinv,
   fun _ _ _ _ hinv h => gate_inv_palette_write cfg wf h hinv,
   fun _ _ _ _ hinv h => gate_inv_sprite_write cfg wf h hinv⟩

theorem c2_witness :
    WFConfig cfg0 ∧
    (gate_inv cfg0 (new_state cfg0) ∧
    (∀ s s', init_sim cfg0 s false = some s' → gate_inv cfg0 s') ∧
    (∀ s s', gate_inv cfg0 s → init_sim cfg0 s true = some s' → gate_inv cfg0 s') ∧
    (∀ s s' mir prg chr, load_rom cfg0 s mir prg chr = some s' → gate_inv cfg0 s') ∧
    (∀ s s', gate_inv cfg0 s → half_step cfg0 s = some s' → gate_inv cfg0 s') ∧
    (∀ s s' a v, gate_inv cfg0 s → palette_write cfg0 s a v = some s' → gate_inv cfg0 s') ∧
    (∀ s s' a v, gate_inv cfg0 s → sprite_write cfg0 s a v = some s' → gate_inv cfg0 s')) :=
  ⟨wf_cfg0, c2_gate_invariant cfg0 wf_cfg0⟩

theorem c5_witness :
    2 ≤ 3 ∧
    ([7, 0, 0, 0, 0, 2, 0, 0, 2] : List Nat).length = 3 + 2 * 3 ∧
    (seg_area [7, 0, 0, 0, 0, 2, 0, 0, 2] =
      (seg_x [7, 0, 0, 0, 0, 2, 0, 0, 2] (3 - 1) * seg_y [7, 0, 0, 0, 0, 2, 0, 0, 2] 0 -
        seg_x [7, 0, 0, 0, 0, 2, 0, 0, 2] 0 * seg_y [7, 0, 0, 0, 0, 2, 0, 0, 2] (3 - 1) +
        ((List.range (3 - 2)).map
          (fun k =>
            seg_x [7, 0, 0, 0, 0, 2, 0, 0, 2] k * seg_y [7, 0, 0, 0, 0, 2, 0, 0, 2] (k + 1) -
            seg_x [7, 0, 0, 0, 0, 2, 0, 0, 2] (k + 1) *
              seg_py [7, 0, 0, 0, 0, 2, 0, 0, 2] k)).sum).natAbs ∧
      setup_nodes_area [] NODE_GND = 0 ∧ setup_nodes_area [] NODE_PWR = 0) :=
  ⟨by decide, by decide,
   c5_area_formula [] [7, 0, 0, 0, 0, 2, 0, 0, 2] 3 (by decide) (by decide)⟩

end Nessim
